import Mathlib

/-!
Verification of the CytoPy gating engine specification against the source.

The development shallowly embeds two code bases of the repository:

* `CData` models `src/CytoPy/data/population.py` (population records and the
  merge set-algebra on threshold/polygon populations);
* `Engine` models `src/cytopy/flow/gating/actions.py` (the `Gating` class:
  the population tree, gate registry, region evaluation, merge/subtract and
  the FMO prediction cache).

Tabular event data is modelled as a list of rows, each carrying an event id
and named rational-valued channels.  Python dictionaries are modelled as
association lists in insertion order; numpy index arrays as lists of event
ids.  Operations that raise in Python return `Except String`; operations
that print an error and return `None` return an error value as well, with
the pre-call state where the source leaves the state untouched.
-/

namespace CytoPySpec

instance exceptDecEq {e a : Type} [DecidableEq e] [DecidableEq a] : DecidableEq (Except e a)
  | .ok x, .ok y =>
    match decEq x y with
    | isTrue h => isTrue (by rw [h])
    | isFalse h => isFalse (fun hc => h (by injection hc))
  | .ok _, .error _ => isFalse (fun hc => Except.noConfusion hc)
  | .error _, .ok _ => isFalse (fun hc => Except.noConfusion hc)
  | .error x, .error y =>
    match decEq x y with
    | isTrue h => isTrue (by rw [h])
    | isFalse h => isFalse (fun hc => h (by injection hc))

/-- one row of a tabular event dataset: an event id plus named channels. -/
structure Row where
  id : Nat
  vals : List (String × ℚ)
deriving DecidableEq, Repr

/-- lookup in an association list (Python dictionary access returning None
when the key is absent). -/
def alookup {α : Type} (l : List (String × α)) (k : String) : Option α :=
  (l.find? (fun p => p.1 == k)).map (fun p => p.2)

/-- Python dictionary membership test. -/
def dhas {α : Type} (l : List (String × α)) (k : String) : Bool :=
  l.any (fun p => p.1 == k)

/-- Python dictionary item assignment: update in place if the key exists,
else append (insertion order preserved). -/
def dset {α : Type} (l : List (String × α)) (k : String) (v : α) : List (String × α) :=
  if l.any (fun p => p.1 == k) then
    l.map (fun p => if p.1 == k then (k, v) else p)
  else l ++ [(k, v)]

/-- Python dictionary `pop`: remove all entries under the key. -/
def dpop {α : Type} (l : List (String × α)) (k : String) : List (String × α) :=
  l.filter (fun p => !(p.1 == k))

/-- value of a named channel in a row; the sources only read columns that are
present (a missing column would raise a KeyError in pandas), so a default of
0 is never observed by the claims. -/
def getVal (r : Row) (c : String) : ℚ :=
  (alookup r.vals c).getD 0

/-- `numpy.unique` on an array of event ids: sorted, duplicate-free values. -/
def npUnique (l : List Nat) : List Nat :=
  List.insertionSort (fun a b => a ≤ b) l.dedup

/-- `numpy.setdiff1d`: sorted unique values of the first array that are not
in the second. -/
def npSetdiff (a b : List Nat) : List Nat :=
  npUnique (a.filter (fun x => !(b.contains x)))

/-- banker's rounding of `100 * q` to an integer, as used by Python / numpy /
pandas rounding of floats; written with integer arithmetic on the numerator
and denominator (the floor of `n / d` for positive `d` is `Int.fdiv n d`, and
the fractional remainder `rem / d` is compared with one half by cross
multiplication). -/
def roundTimes100 (q : ℚ) : ℤ :=
  let n : ℤ := q.num * 100
  let d : ℤ := (q.den : ℤ)
  let f : ℤ := Int.fdiv n d
  let rem : ℤ := n - f * d
  if 2 * rem < d then f
  else if d < 2 * rem then f + 1
  else if f % 2 = 0 then f else f + 1

/-- rounding to two decimal places (`round(x, 2)` / `DataFrame.round(decimals=2)`):
the banker's rounding of `100 * q`, divided by 100. -/
def round2 (q : ℚ) : ℚ :=
  mkRat (roundTimes100 q) 100

/-- `DataFrame.loc[idx]`: select rows by event id, in the order of `idx`;
a missing label raises (KeyError). -/
def locRows (ds : List Row) : List Nat → Except String (List Row)
  | [] => .ok []
  | i :: idx =>
    match ds.find? (fun r => r.id == i), locRows ds idx with
    | _, .error e => .error e
    | some r, .ok l => .ok (r :: l)
    | none, .ok _ => .error ("KeyError: loc label missing")

namespace CData

/-- Modelled from the spec: `ThresholdGeom` lives in `CytoPy.data.geometry`,
which is not under src/; per the geometry table of the spec (section 3) a
threshold geometry carries the two axes, their transforms, and one threshold
per axis. -/
structure ThresholdGeom where
  x : Option String
  y : Option String
  transform_x : Option String
  transform_y : Option String
  x_threshold : Option ℚ
  y_threshold : Option ℚ
deriving DecidableEq, Repr

/-- Modelled from the spec: `PolygonGeom` lives in `CytoPy.data.geometry`,
which is not under src/; per the geometry table of the spec (section 3) a
polygon geometry carries the two axes, their transforms, and the vertex
coordinates. -/
structure PolygonGeom where
  x : Option String
  y : Option String
  transform_x : Option String
  transform_y : Option String
  x_values : List ℚ
  y_values : List ℚ
deriving DecidableEq, Repr

/-- the tagged geometry variant attached to a population record. -/
inductive PopGeom where
  | threshold (g : ThresholdGeom)
  | polygon (g : PolygonGeom)
deriving DecidableEq, Repr

def PopGeom.x : PopGeom → Option String
  | .threshold g => g.x
  | .polygon g => g.x

def PopGeom.y : PopGeom → Option String
  | .threshold g => g.y
  | .polygon g => g.y

def PopGeom.transform_x : PopGeom → Option String
  | .threshold g => g.transform_x
  | .polygon g => g.transform_x

def PopGeom.transform_y : PopGeom → Option String
  | .threshold g => g.transform_y
  | .polygon g => g.transform_y

/-- `CytoPy.data.population.Population`: a population record.  Clusters are
identified by their ids only (their other fields play no role in the merge
operations modelled here). -/
structure Population where
  population_name : String
  n : Nat
  parent : String
  warnings : List String
  index : List Nat
  geom : PopGeom
  definition : String
  clusters : List String
  ctrl_index : List (String × List Nat)
  signature : List (String × ℚ)
deriving DecidableEq, Repr

/-- `_merge_index`: `np.unique(np.concatenate([left.index, right.index]))`. -/
def _merge_index (left right : Population) : List Nat :=
  npUnique (left.index ++ right.index)

/-- `_merge_signatures`: `pd.DataFrame([left.signature, right.signature]).mean()`
averages each column over the entries that carry it. -/
def _merge_signatures (left right : Population) : List (String × ℚ) :=
  let lkeys := left.signature.map Prod.fst
  let keys := lkeys ++ ((right.signature.map Prod.fst).filter (fun k => !(lkeys.contains k)))
  keys.map (fun k =>
    match alookup left.signature k, alookup right.signature k with
    | some a, some b => (k, (a + b) / 2)
    | some a, none => (k, a)
    | none, some b => (k, b)
    | none, none => (k, 0))

/-- `_merge_thresholds`: merge two populations carrying threshold geometries.
The source also clears `left.clusters` when either input carries clusters (a
typo leaves `right.clusters` untouched) and emits warnings through `warn`;
neither affects the returned population, whose `clusters` and `ctrl_index`
fields take the mongoengine defaults. -/
def _merge_thresholds (left right : Population) (new_population_name : String) :
    Except String Population :=
  match left.geom, right.geom with
  | .threshold lg, .threshold rg =>
    if lg.x_threshold ≠ rg.x_threshold then
      .error ("X threshold should match between populations")
    else if lg.y_threshold ≠ rg.y_threshold then
      .error ("Y threshold should match between populations")
    else
      .ok { population_name := new_population_name
            n := left.index.length + right.index.length
            parent := left.parent
            warnings := left.warnings ++ right.warnings ++ ["MERGED POPULATION"]
            index := _merge_index left right
            geom := .threshold { x := lg.x, y := lg.y,
                                 transform_x := lg.transform_x,
                                 transform_y := lg.transform_y,
                                 x_threshold := lg.x_threshold,
                                 y_threshold := lg.y_threshold }
            definition := left.definition ++ "," ++ right.definition
            clusters := []
            ctrl_index := []
            signature := _merge_signatures left right }
  | _, _ => .error ("not threshold geometries")

/-- external shapely operations used by the polygon merge (shapely is an
external collaborator, not part of the repository). -/
structure PolyExt where
  intersects : PolygonGeom → PolygonGeom → Bool
  unionCords : PolygonGeom → PolygonGeom → List ℚ × List ℚ

/-- `_check_overlap` specialised to `error=True` as called by `_merge_polygons`. -/
def _check_overlap (ext : PolyExt) (left right : Population) : Except String Unit :=
  match left.geom, right.geom with
  | .polygon lg, .polygon rg =>
    if ext.intersects lg rg then .ok ()
    else .error ("Invalid: non-overlapping populations")
  | _, _ => .error ("Only Polygon geometries can be checked for overlap")

/-- `_merge_polygons`: merge two populations carrying polygon geometries. -/
def _merge_polygons (ext : PolyExt) (left right : Population) (new_population_name : String) :
    Except String Population :=
  match _check_overlap ext left right with
  | .error e => .error e
  | .ok _ =>
    match left.geom, right.geom with
    | .polygon lg, .polygon rg =>
      let cords := ext.unionCords lg rg
      let new_idx := _merge_index left right
      .ok { population_name := new_population_name
            n := new_idx.length
            parent := left.parent
            warnings := left.warnings ++ right.warnings ++ ["MERGED POPULATION"]
            index := new_idx
            geom := .polygon { x := lg.x, y := lg.y,
                               transform_x := lg.transform_x,
                               transform_y := lg.transform_y,
                               x_values := cords.1,
                               y_values := cords.2 }
            definition := ""
            clusters := []
            ctrl_index := []
            signature := _merge_signatures left right }
    | _, _ => .error ("not polygon geometries")

/-- `_check_transforms_dimensions`: transforms and axes must match. -/
def _check_transforms_dimensions (left right : Population) : Except String Unit :=
  if left.geom.transform_x ≠ right.geom.transform_x then
    .error ("X dimension transform differs between left and right populations")
  else if left.geom.transform_y ≠ right.geom.transform_y then
    .error ("Y dimension transform differs between left and right populations")
  else if left.geom.x ≠ right.geom.x then
    .error ("X dimension differs between left and right populations")
  else if left.geom.y ≠ right.geom.y then
    .error ("Y dimension differs between left and right populations")
  else .ok ()

/-- `merge_populations`: the entry point of the population set-algebra merge. -/
def merge_populations (ext : PolyExt) (left right : Population)
    (new_population_name : Option String) : Except String Population :=
  match _check_transforms_dimensions left right with
  | .error e => .error e
  | .ok _ =>
    let name := new_population_name.getD
      ("merge_" ++ left.population_name ++ "_" ++ right.population_name)
    if left.parent ≠ right.parent then .error ("Parent populations do not match")
    else
      match left.geom, right.geom with
      | .threshold _, .threshold _ => _merge_thresholds left right name
      | .polygon _, .polygon _ => _merge_polygons ext left right name
      | _, _ => .error ("Geometries must be of the same type")

end CData

namespace Engine

/-- a Python value stored in a geometry dictionary or in gate keyword
arguments: None, a string, a number, a list of strings, a coordinate
dictionary, or a coordinate pair. -/
inductive GVal where
  | vnone
  | vstr (s : String)
  | vnum (q : ℚ)
  | vstrlist (l : List String)
  | vcords (xs ys : List ℚ)
  | vpair (a b : ℚ)
deriving DecidableEq, Repr

/-- a geometry dictionary, as stored on population nodes. -/
abbrev Geom := List (String × GVal)

/-- Python `d.get(k)`: None when the key is absent. -/
def gget (l : List (String × GVal)) (k : String) : GVal :=
  (alookup l k).getD GVal.vnone

/-- Python `d[k]`: KeyError when the key is absent. -/
def ggetItem (l : List (String × GVal)) (k : String) : Except String GVal :=
  match alookup l k with
  | some v => .ok v
  | none => .error ("KeyError")

def GVal.asStr : GVal → Option String
  | .vstr s => some s
  | _ => none

def GVal.asNum : GVal → Option ℚ
  | .vnum q => some q
  | _ => none

/-- Python truthiness of a stored value. -/
def GVal.truthy : GVal → Bool
  | .vnone => false
  | .vstr s => !(s == "")
  | .vnum q => !(q == 0)
  | .vstrlist l => !l.isEmpty
  | .vcords _ _ => true
  | .vpair _ _ => true

/-- a population node of the gating tree (`anytree.Node` with the attributes
given to it by `Gating`); the parent is referenced by name. -/
structure PNode where
  name : String
  parent : Option String
  index : List Nat
  geom : Option Geom
  prop_of_parent : ℚ
  prop_of_total : ℚ
  warnings : List String
deriving DecidableEq, Repr

/-- Modelled from the spec: one entry of a `ChildPopulationCollection` (the
collection class lives in `cytopy.flow.gating.defaults`, which is not under
src/): a declared child population together with the geometry and index a
gate computed for it (spec section 4.2, step 3). -/
structure ChildPop where
  name : String
  geom : Option Geom
  index : List Nat
deriving DecidableEq, Repr

/-- a gate document (`cytopy.data.gating.Gate`); keyword arguments hold the
scalar gate parameters (the embedded child-population collection of the
source is carried separately by the operations that need it). -/
structure DGate where
  gate_name : String
  children : List String
  parent : String
  class_ : String
  method : String
  kwargs : List (String × GVal)
deriving DecidableEq, Repr

/-- the mutable state of one `Gating` engine instance: primary data, control
data, the FMO search cache (control id to population name to cached control
index), the gate registry and the population tree. -/
structure Gating where
  data : List Row
  fmo : List (String × List Row)
  fmo_search_cache : List (String × List (String × List Nat))
  gates : List (String × DGate)
  populations : List (String × PNode)
deriving DecidableEq, Repr

/-- Modelled from the spec: external collaborators of the engine that are not
part of the repository (shapely point-in-polygon and ellipse tests, the
transform library, scikit-learn nearest-neighbour classification, random
sub-sampling, scipy convex hulls).  Each is an opaque pure function; the
engine code under verification only routes data through them. -/
structure GatingExt where
  pointInPoly : ℚ → ℚ → List ℚ → List ℚ → Bool
  insideEllipse : ℚ → ℚ → ℚ → ℚ → ℚ → ℚ → ℚ → Bool
  transform : String → String → ℚ → ℚ
  subsample : List Row → List Row
  knn : List (ℚ × ℚ × Nat) → ℚ → ℚ → Nat
  convexHullCords : List (ℚ × ℚ) → List ℚ × List ℚ

/-- `apply_transform` from `cytopy.flow.transforms` (not under src/): a
value-wise transformation of the listed feature columns; rows and event ids
are unchanged. -/
def apply_transform_model (ext : GatingExt) (method : String) (features : List String)
    (df : List Row) : List Row :=
  df.map (fun r =>
    { r with vals := r.vals.map (fun p =>
        if features.contains p.1 then (p.1, ext.transform method p.1 p.2) else p) })

/-- `Gating.get_population_df` with the default `transform=False`,
`label=False` (all engine-internal call sites use the defaults): the primary
rows of the named population.  The source prints and returns None for an
unknown name; selecting the rows raises on a stale index. -/
def get_population_df (g : Gating) (population_name : String) : Except String (List Row) :=
  match alookup g.populations population_name with
  | none => .error ("Population not recognised")
  | some node => locRows g.data node.index

/-- `Gating.update_populations`: commit each child population produced by a
gate into the tree, computing its proportions against the parent dataframe
and the full dataset (a zero denominator raises in the source). -/
def update_populations (g : Gating) (output : List ChildPop) (parent_df : List Row)
    (warnings : List String) (parent_name : String) : Except String Gating :=
  match output with
  | [] => .ok g
  | child :: rest =>
    match alookup g.populations parent_name with
    | none => .error ("KeyError: parent population")
    | some _ =>
      let n := child.index.length
      if n = 0 then
        let node : PNode :=
          { name := child.name, parent := some parent_name, index := child.index,
            geom := child.geom, prop_of_parent := 0, prop_of_total := 0,
            warnings := warnings }
        update_populations { g with populations := dset g.populations child.name node }
          rest parent_df warnings parent_name
      else if parent_df.length = 0 ∨ g.data.length = 0 then
        .error ("ZeroDivisionError")
      else
        let node : PNode :=
          { name := child.name, parent := some parent_name, index := child.index,
            geom := child.geom,
            prop_of_parent := mkRat (n : ℤ) parent_df.length,
            prop_of_total := mkRat (n : ℤ) g.data.length,
            warnings := warnings }
        update_populations { g with populations := dset g.populations child.name node }
          rest parent_df warnings parent_name

/-- the chain of population names from a node up to the root, following the
parent references (the reverse of `anytree` `node.path`); fuel bounds the
walk. -/
def parent_chain (pops : List (String × PNode)) : Nat → String → List String
  | 0, _ => []
  | Nat.succ fuel, name =>
    match alookup pops name with
    | none => []
    | some node =>
      name :: (match node.parent with
               | none => []
               | some par => parent_chain pops fuel par)

/-- names on the path of a population, node first, root last. -/
def pathNames (g : Gating) (name : String) : List String :=
  parent_chain g.populations (g.populations.length + 1) name

/-- `Gating.find_dependencies`: all populations whose path passes through the
given one, itself included; None when the population is unknown. -/
def find_dependencies (g : Gating) (population : String) : Option (List String) :=
  if (alookup g.populations population).isNone then none
  else some ((g.populations.map Prod.fst).filter (fun n => (pathNames g n).contains population))

/-- `Gating.remove_population`: detach the named node and drop it and all of
its dependents from the tree (an unknown name prints and leaves the state
unchanged; the `hard_delete` database branch belongs to the persistence
collaborator and is outside the model). -/
def remove_population (g : Gating) (population_name : String) : Gating :=
  match find_dependencies g population_name with
  | none => g
  | some downstream =>
    { g with populations := g.populations.filter (fun kv => !(downstream.contains kv.1)) }

/-- a row with every channel value rounded to two decimals
(`DataFrame.round(decimals=2)`). -/
def round_row2 (r : Row) : Row :=
  { r with vals := r.vals.map (fun kv => (kv.1, round2 kv.2)) }

/-- the inner helper `geom_bool` of `Gating.__update_index` for 2D threshold
gates: round the dataframe and both thresholds to two decimals, then select
the quadrant by strict comparisons. -/
def geom_bool (xcol ycol : String) (tx ty : ℚ) (definition : String) (p : List Row) :
    Except String (List Nat) :=
  if definition == ("++") then
    .ok (((p.map round_row2).filter (fun r =>
      decide (round2 tx < getVal r xcol) && decide (round2 ty < getVal r ycol))).map Row.id)
  else if definition == ("--") then
    .ok (((p.map round_row2).filter (fun r =>
      decide (getVal r xcol < round2 tx) && decide (getVal r ycol < round2 ty))).map Row.id)
  else if definition == ("+-") then
    .ok (((p.map round_row2).filter (fun r =>
      decide (round2 tx < getVal r xcol) && decide (getVal r ycol < round2 ty))).map Row.id)
  else if definition == ("-+") then
    .ok (((p.map round_row2).filter (fun r =>
      decide (getVal r xcol < round2 tx) && decide (round2 ty < getVal r ycol))).map Row.id)
  else .error ("ValueError: 2D threshold definition")

/-- the conditional x-axis transform step of `Gating.__update_index`
(applied when the geometry carries a non-None `transform_x`). -/
def maybe_transform_x (ext : GatingExt) (geom : Geom) (xcol : String) (df : List Row) :
    List Row :=
  match gget geom ("transform_x") with
  | GVal.vnone => df
  | tv => apply_transform_model ext (tv.asStr.getD ("")) [xcol] df

/-- the conditional y-axis transform step of `Gating.__update_index`
(applied when both `transform_y` and the y axis are non-None). -/
def maybe_transform_y (ext : GatingExt) (geom : Geom) (yv : GVal) (df : List Row) :
    List Row :=
  match gget geom ("transform_y"), yv with
  | GVal.vnone, _ => df
  | _, GVal.vnone => df
  | tv, yval => apply_transform_model ext (tv.asStr.getD ("")) [yval.asStr.getD ("")] df

/-- evaluation of a list of 2D threshold definitions, one `geom_bool` call
each, first failure propagating. -/
def geom_bool_list (xcol ycol : String) (tx ty : ℚ) :
    List String → List Row → Except String (List (List Nat))
  | [], _ => .ok []
  | d :: rest, p =>
    match geom_bool xcol ycol tx ty d p, geom_bool_list xcol ycol tx ty rest p with
    | .ok i, .ok is => .ok (i :: is)
    | .error e, _ => .error e
    | _, .error e => .error e

/-- the shape dispatch of `Gating.__update_index`: evaluate the geometry
against the (already transformed) parent dataframe. -/
def update_index_core (ext : GatingExt) (geom : Geom) (xcol : String) (yv : GVal)
    (parent2 : List Row) : Except String (List Nat) :=
  match ggetItem geom ("shape") with
  | .error e => .error e
  | .ok shape =>
    if shape == GVal.vstr ("threshold") then
      if !(dhas geom ("threshold")) then .error ("Geom must contain a key threshold")
      else if !(dhas geom ("transform_x")) then .error ("Geom must contain a key transform_x")
      else if !(dhas geom ("definition")) then .error ("Geom must contain key definition")
      else match (gget geom ("threshold")).asNum with
      | none => .error ("TypeError: threshold")
      | some th =>
        let d := gget geom ("definition")
        if d == GVal.vstr ("+") then
          .ok ((parent2.filter (fun r => decide (th ≤ getVal r xcol))).map Row.id)
        else if d == GVal.vstr ("-") then
          .ok ((parent2.filter (fun r => decide (getVal r xcol < th))).map Row.id)
        else .error ("ValueError: 1D threshold definition")
    else if shape == GVal.vstr ("2d_threshold") then
      if !(dhas geom ("definition")) then .error ("Geom must contain key definition")
      else if !(dhas geom ("threshold_x") && dhas geom ("threshold_y")) then
        .error ("Geom must contain keys threshold_x and threshold_y")
      else if !yv.truthy then .error ("Geom is missing value for y")
      else if !(dhas geom ("transform_x") && dhas geom ("transform_y")) then
        .error ("Geom must contain keys transform_x and transform_y")
      else match (gget geom ("threshold_x")).asNum, (gget geom ("threshold_y")).asNum,
                 yv.asStr with
      | some tx, some ty, some ycol =>
        (match gget geom ("definition") with
         | GVal.vstrlist l =>
           (geom_bool_list xcol ycol tx ty l parent2).map List.flatten
         | d =>
           match d.asStr with
           | some ds => geom_bool xcol ycol tx ty ds parent2
           | none => .error ("ValueError: 2D threshold definition"))
      | _, _, _ => .error ("TypeError: 2D threshold values")
    else if shape == GVal.vstr ("rect") then
      if !(dhas geom ("definition")) then .error ("Geom must contain key definition")
      else if !(dhas geom ("x_min") && dhas geom ("x_max") && dhas geom ("y_min") &&
                dhas geom ("y_max")) then
        .error ("Geom must contain keys x_min x_max y_min y_max")
      else if !(dhas geom ("transform_x") && dhas geom ("transform_y")) then
        .error ("Geom must contain keys transform_x and transform_y")
      else if !yv.truthy then .error ("Geom is missing value for y")
      else match (gget geom ("x_min")).asNum, (gget geom ("x_max")).asNum,
                 (gget geom ("y_min")).asNum, (gget geom ("y_max")).asNum, yv.asStr with
      | some xmin, some xmax, some ymin, some ymax, some ycol =>
        let pos := parent2.filter (fun r =>
          decide (xmin ≤ getVal r xcol) && decide (getVal r xcol ≤ xmax) &&
          decide (ymin ≤ getVal r ycol) && decide (getVal r ycol ≤ ymax))
        let d := gget geom ("definition")
        if d == GVal.vstr ("+") then .ok (pos.map Row.id)
        else if d == GVal.vstr ("-") then
          .ok ((parent2.filter (fun r => !((pos.map Row.id).contains r.id))).map Row.id)
        else .error ("ValueError: rect definition")
      | _, _, _, _, _ => .error ("TypeError: rect values")
    else if shape == GVal.vstr ("ellipse") then
      if !(dhas geom ("definition")) then .error ("Geom must contain key definition")
      else if !(dhas geom ("centroid") && dhas geom ("width") && dhas geom ("height") &&
                dhas geom ("angle")) then
        .error ("Geom must contain keys centroid width height angle")
      else if !yv.truthy then .error ("Geom is missing value for y")
      else if !(dhas geom ("transform_x") && dhas geom ("transform_y")) then
        .error ("Geom must contain keys transform_x and transform_y")
      else match gget geom ("centroid"), (gget geom ("width")).asNum,
                 (gget geom ("height")).asNum, (gget geom ("angle")).asNum, yv.asStr with
      | GVal.vpair cx cy, some w, some h, some ang, some ycol =>
        let pos := parent2.filter (fun r =>
          ext.insideEllipse (getVal r xcol) (getVal r ycol) cx cy w h ang)
        let d := gget geom ("definition")
        if d == GVal.vstr ("+") then .ok (pos.map Row.id)
        else if d == GVal.vstr ("-") then
          .ok ((parent2.filter (fun r => !((pos.map Row.id).contains r.id))).map Row.id)
        else .error ("ValueError: ellipse definition")
      | _, _, _, _, _ => .error ("TypeError: ellipse values")
    else if shape == GVal.vstr ("poly") then
      if !(dhas geom ("cords") && dhas geom ("transform_x") && dhas geom ("transform_y") &&
           dhas geom ("x") && dhas geom ("y")) then
        .error ("Geom must contain keys cords transform_x transform_y x y")
      else match gget geom ("cords") with
      | GVal.vcords xs ys =>
        match yv.asStr with
        | some ycol =>
          .ok ((parent2.filter (fun r =>
            ext.pointInPoly (getVal r xcol) (getVal r ycol) xs ys)).map Row.id)
        | none => .error ("KeyError: y column")
      | _ => .error ("Cords should be of type dictionary")
    else .error ("ValueError: Geom shape not recognised")

/-- `Gating.__update_index`: recompute the index of a population from a
geometry dictionary by evaluating the geometry against the parent dataframe
(with the per-axis transforms applied first). -/
def update_index (ext : GatingExt) (g : Gating) (population_name : String) (geom : Geom) :
    Except String (List Nat) :=
  match alookup g.populations population_name with
  | none => .error ("Population does not exist")
  | some node =>
    match node.parent with
    | none => .error ("AttributeError: root has no parent")
    | some parent_name =>
      match get_population_df g parent_name with
      | .error e => .error e
      | .ok parent0 =>
        let xv := gget geom ("x")
        let yv := gget geom ("y")
        if !xv.truthy then .error ("Geom is missing value for x")
        else match xv.asStr with
        | none => .error ("TypeError: x is not a column name")
        | some xcol =>
          update_index_core ext geom xcol yv
            (maybe_transform_y ext geom yv (maybe_transform_x ext geom xcol parent0))

/-- outcome of `Gating.remove_gate`: invalid name (prints, returns None),
the no-propagation return value True, or the pair of removed gate and
population name lists. -/
inductive RemoveGateOut where
  | invalid
  | simple
  | propagated (gates : List String) (pops : List String)
deriving DecidableEq, Repr

/-- `Gating.remove_gate`. -/
def remove_gate (g : Gating) (gate_name : String) (propagate : Bool) :
    Gating × RemoveGateOut :=
  match alookup g.gates gate_name with
  | none => (g, .invalid)
  | some gate =>
    if gate.children.isEmpty || !propagate then
      ({ g with gates := dpop g.gates gate_name }, .simple)
    else
      let st := gate.children.foldl (fun (st : Gating × List String) child =>
        match find_dependencies st.1 child with
        | none => st
        | some deps => (remove_population st.1 child, st.2 ++ deps ++ [child])) (g, [])
      let effected_gates :=
        (st.1.gates.filter (fun kv => st.2.contains kv.2.parent)).map Prod.fst ++ [gate_name]
      ({ st.1 with gates := st.1.gates.filter (fun kv => !(effected_gates.contains kv.1)) },
       .propagated effected_gates st.2)

/-- `Gating.merge`: merge two sibling populations into a new one whose index
is the deduplicated union of their indices and whose geometry is the convex
hull polygon of the merged events; a pseudo merge gate is registered. -/
def merge (ext : GatingExt) (g : Gating)
    (population_left population_right new_population_name : String) :
    Except String Gating :=
  if (alookup g.populations new_population_name).isSome then
    .error ("new population name already exists")
  else match alookup g.populations population_left, alookup g.populations population_right with
  | some ln, some rn =>
    match ln.parent, rn.parent with
    | some lp, some rp =>
      if lp ≠ rp then .error ("Population parent must match for merging populations")
      else match alookup g.populations lp with
      | none => .error ("KeyError: parent population")
      | some _ =>
        match ln.geom with
        | none => .error ("TypeError: geom is None")
        | some lgeom =>
          match ggetItem lgeom ("x"), ggetItem lgeom ("y") with
          | .ok xg, .ok yg =>
            match xg.asStr, yg.asStr with
            | some xcol, some ycol =>
              let index := npUnique (ln.index ++ rn.index)
              match get_population_df g lp with
              | .error e => .error e
              | .ok parent_df =>
                match locRows parent_df index with
                | .error e => .error e
                | .ok drows =>
                  let pts := drows.map (fun r => (getVal r xcol, getVal r ycol))
                  let cords := ext.convexHullCords pts
                  let geom : Geom :=
                    [(("x"), GVal.vstr xcol), (("y"), GVal.vstr ycol),
                     (("shape"), GVal.vstr ("poly")), (("cords"), GVal.vcords cords.1 cords.2)]
                  match update_populations g [⟨new_population_name, some geom, index⟩]
                      parent_df [] lp with
                  | .error e => .error e
                  | .ok g1 =>
                    let gname := ("merge_") ++ population_left ++ ("_") ++ population_right
                    let kwargs :=
                      [(("left"), GVal.vstr population_left),
                       (("right"), GVal.vstr population_right),
                       (("name"), GVal.vstr new_population_name),
                       (("x"), GVal.vstr xcol), (("y"), GVal.vstr ycol)]
                    let gate : DGate :=
                      ⟨gname, [new_population_name], lp, ("merge"), ("merge"), kwargs⟩
                    .ok { g1 with gates := dset g1.gates gname gate }
            | _, _ => .error ("KeyError: axis column")
          | _, _ => .error ("KeyError: geom axis")
    | _, _ => .error ("AttributeError: parent of root")
  | _, _ => .error ("population not recognised")

/-- `Gating.subtraction`: new population = parent events minus the union of
the target populations, geometry inheriting the parent axes with the `sub`
shape marker; a pseudo subtraction gate is registered (the Python gate name
interpolates the list repr of the targets; the model joins the names, which
no claim depends on). -/
def subtraction (g : Gating) (target : List String) (parent : String)
    (new_population_name : String) : Except String Gating :=
  match alookup g.populations parent with
  | none => .error ("parent population not recognised")
  | some pnode =>
    if !(target.all (fun t => (alookup g.populations t).isSome)) then
      .error ("target population not recognised")
    else if (alookup g.populations new_population_name).isSome then
      .error ("a population with this name already exists")
    else match pnode.geom with
    | none => .error ("TypeError: geom is None")
    | some pgeom =>
      match ggetItem pgeom ("x"), ggetItem pgeom ("y") with
      | .ok xg, .ok yg =>
        if target.isEmpty then .error ("ValueError: need at least one array to concatenate")
        else
          let tindex := npUnique (target.foldr (fun t acc =>
            ((alookup g.populations t).map PNode.index).getD [] ++ acc) [])
          let index := npSetdiff pnode.index tindex
          let geom : Geom := [(("x"), xg), (("y"), yg), (("shape"), GVal.vstr ("sub"))]
          match get_population_df g parent with
          | .error e => .error e
          | .ok parent_df =>
            match update_populations g [⟨new_population_name, some geom, index⟩]
                parent_df [] parent with
            | .error e => .error e
            | .ok g1 =>
              let gname := parent ++ ("_minus_") ++ (String.intercalate (",") target)
              let kwargs :=
                [(("parent"), GVal.vstr parent), (("target"), GVal.vstrlist target),
                 (("name"), GVal.vstr new_population_name), (("x"), xg), (("y"), yg)]
              let gate : DGate :=
                ⟨gname, [new_population_name], parent, ("subtraction"), ("subtraction"), kwargs⟩
              .ok { g1 with gates := dset g1.gates gname gate }
      | _, _ => .error ("KeyError: geom axis")

/-- `Gating.__apply_checks`: the gate must exist, its parent must exist, and
no declared child may already exist (each failure prints and yields None). -/
def apply_checks (g : Gating) (gate_name : String) : Option DGate :=
  match alookup g.gates gate_name with
  | none => none
  | some gatedoc =>
    if (alookup g.populations gatedoc.parent).isNone then none
    else if gatedoc.children.any (fun c => (alookup g.populations c).isSome) then none
    else some gatedoc

/-- `Gating.search_fmo_cache`: the cached control index of a population, if
this population was predicted for this control before. -/
def search_fmo_cache (g : Gating) (target_population fmo : String) :
    Except String (Option (List Nat)) :=
  match alookup g.fmo_search_cache fmo with
  | none => .error ("KeyError: unknown fmo")
  | some cache => .ok (alookup cache target_population)

/-- the predicted label of one control row, as stored into the `pos` column
by `Gating.get_fmo_data`. -/
def paste_knn_label (ext : GatingExt) (trainPts : List (ℚ × ℚ × Nat)) (r : Row)
    (xy : String × String) : ℚ :=
  (ext.knn trainPts (getVal r xy.1) (getVal r xy.2) : ℚ)

/-- one hop of the `Gating.get_fmo_data` prediction loop: select the control
rows at the previous cache index, train a nearest-neighbour classifier on the
parent primary data labelled by membership of the population (sub-sampled
when oversized), predict on the control rows, cache the predicted-positive
control ids, and extend the training trace. -/
def fmo_step (ext : GatingExt) (fmo : String) (fmoDf : List Row)
    (sml_profiles : Option (List (String × String × String)))
    (st : Gating × List Nat × List Row × List String) (pop : String) :
    Except String (Gating × List Nat × List Row × List String) :=
  let g := st.1
  let cache_idx := st.2.1
  match locRows fmoDf cache_idx with
  | .error e => .error e
  | .ok fmo_data =>
    match alookup g.populations pop with
    | none => .error ("KeyError: population")
    | some node =>
      match node.geom with
      | none => .error ("TypeError: geom is None")
      | some geom =>
        match ggetItem geom ("x"), ggetItem geom ("y"), ggetItem geom ("shape") with
        | .ok xg, .ok yg, .ok shg =>
          let y0 := if yg.truthy then yg.asStr.getD ("FSC-A") else ("FSC-A")
          let xyE : Except String (String × String) :=
            if shg == GVal.vstr ("sml") then
              match sml_profiles with
              | none => .error ("AssertionError: no SML profiles provided")
              | some profs =>
                if profs.isEmpty then .error ("AssertionError: no SML profiles provided")
                else match profs.find? (fun p => p.1 == pop) with
                | none => .error ("AssertionError: SML defined population missing")
                | some p => .ok (p.2.1, p.2.2)
            else
              match xg.asStr with
              | some xc => .ok (xc, y0)
              | none => .error ("KeyError: x column")
          match xyE with
          | .error e => .error e
          | .ok xy =>
            match node.parent with
            | none => .error ("AttributeError: parent of root")
            | some parent_name =>
              match get_population_df g parent_name with
              | .error e => .error e
              | .ok train0 =>
                let train1 := if train0.length > 10000 then ext.subsample train0 else train0
                let trainPts := train1.map (fun r =>
                  (getVal r xy.1, getVal r xy.2, if node.index.contains r.id then 1 else 0))
                let fmo_data2 := fmo_data.map (fun r =>
                  { r with vals := dset r.vals ("pos") (paste_knn_label ext trainPts r xy) })
                let cache_idx2 :=
                  (fmo_data2.filter (fun r => getVal r ("pos") == 1)).map Row.id
                let cache2 :=
                  match alookup g.fmo_search_cache fmo with
                  | some inner => dset g.fmo_search_cache fmo (dset inner pop cache_idx2)
                  | none => g.fmo_search_cache
                .ok ({ g with fmo_search_cache := cache2 }, cache_idx2, fmo_data2,
                     st.2.2.2 ++ [pop])
        | _, _, _ => .error ("KeyError: geom entry")

/-- `Gating.get_fmo_data`: return the control rows of the target population.
On a cache hit the cached index is used directly.  On a miss the source walks
the reversed root-to-target path looking for a resume point, but tests each
population name against the keys of the outer cache dictionary (the control
names) rather than the per-control cache, and on a hit resumes from the
population's primary index; the prediction loop then runs over the remaining
path.  Besides the resulting dataframe, the model returns the updated state
and the list of populations for which a classifier was trained (the
call-count instrumentation of the spec; empty on a cache hit). -/
def get_fmo_data (ext : GatingExt) (g : Gating) (target_population fmo : String)
    (sml_profiles : Option (List (String × String × String))) :
    Except String (List Row × Gating × List String) :=
  match search_fmo_cache g target_population fmo with
  | .error e => .error e
  | .ok (some cache_idx) =>
    match alookup g.fmo fmo with
    | none => .error ("KeyError: fmo data")
    | some fmoDf =>
      match locRows fmoDf cache_idx with
      | .error e => .error e
      | .ok rows => .ok (rows, g, [])
  | .ok none =>
    match alookup g.fmo_search_cache fmo with
    | none => .error ("KeyError: fmo cache")
    | some cache =>
      match alookup cache ("root") with
      | none => .error ("KeyError: root cache entry")
      | some rootIdx =>
        match alookup g.populations target_population with
        | none => .error ("KeyError: target population")
        | some _ =>
          let route0 := (pathNames g target_population).reverse.drop 1
          let cacheKeys := g.fmo_search_cache.map Prod.fst
          let rcE : Except String (List String × List Nat) :=
            match (route0.reverse).findIdx? (fun p => cacheKeys.contains p) with
            | none => .ok (route0, rootIdx)
            | some i =>
              match (route0.reverse).get? i with
              | none => .error ("IndexError")
              | some pop =>
                match alookup g.populations pop with
                | none => .error ("KeyError: population")
                | some pnode =>
                  .ok (((route0.reverse).take (i+1)).reverse, pnode.index)
          match rcE with
          | .error e => .error e
          | .ok rc =>
            match alookup g.fmo fmo with
            | none => .error ("KeyError: fmo data")
            | some fmoDf =>
              match locRows fmoDf rc.2 with
              | .error e => .error e
              | .ok fmo_data0 =>
                match rc.1.foldlM (fmo_step ext fmo fmoDf sml_profiles)
                    (g, rc.2, fmo_data0, []) with
                | .error e => .error e
                | .ok stf =>
                  match locRows stf.2.2.1 stf.2.1 with
                  | .error e => .error e
                  | .ok rows => .ok (rows, stf.1, stf.2.2.2)

/-- Modelled from the spec: a pluggable gating strategy (the gating classes
of `cytopy.flow.gating` are not under src/): invoked with the gate document,
the merged keyword arguments, the optional FMO dataframes and the parent
dataframe, it returns one child population per declared child together with
its warnings, or fails (spec section 4.2, step 3). -/
def StrategyOracle : Type :=
  DGate → List (String × GVal) → Option (List Row) → Option (List Row) → List Row →
    Option (List ChildPop × List String)

/-- `Gating.apply`: apply a registered gate.  Failed checks print and return
with the state untouched; otherwise keyword arguments are merged, FMO data is
fetched when requested (note the source checks `fmo_x` against the merged
arguments but `fmo_y` against the call arguments only), and the gate is
dispatched to merge, subtraction, or the bound strategy class whose output is
committed by `update_populations`. -/
def apply (ext : GatingExt) (strat : StrategyOracle) (g : Gating) (gate_name : String)
    (kwargs : List (String × GVal)) : Gating × Option String :=
  match apply_checks g gate_name with
  | none => (g, some ("ValidationError: apply checks failed"))
  | some gatedoc =>
    let gkwargs := kwargs.foldl (fun acc kv => dset acc kv.1 kv.2) gatedoc.kwargs
    let fmoFetch : Gating → Bool → String → Except String (Gating × Option (List Row)) :=
      fun gcur wanted key =>
        if wanted then
          match (gget gkwargs key).asStr with
          | some fname =>
            (get_fmo_data ext gcur gatedoc.parent fname none).map
              (fun r => (r.2.1, some r.1))
          | none => .error ("TypeError: fmo control name")
        else .ok (gcur, none)
    let run : Except String Gating :=
      (match fmoFetch g (dhas gkwargs ("fmo_x")) ("fmo_x") with
       | .error e => .error e
       | .ok s1 =>
         match fmoFetch s1.1 (dhas kwargs ("fmo_y")) ("fmo_y") with
         | .error e => .error e
         | .ok s2 =>
           if gatedoc.class_ == ("merge") then
             match (gget gkwargs ("left")).asStr, (gget gkwargs ("right")).asStr,
                   (gget gkwargs ("name")).asStr with
             | some l, some r, some nm => merge ext s2.1 l r nm
             | _, _, _ => .error ("AssertionError: merge arguments")
           else if gatedoc.class_ == ("subtraction") then
             match gget gkwargs ("target"), (gget gkwargs ("parent")).asStr,
                   (gget gkwargs ("name")).asStr with
             | GVal.vstrlist t, some p, some nm => subtraction s2.1 t p nm
             | _, _, _ => .error ("AssertionError: subtraction arguments")
           else
             match get_population_df s2.1 gatedoc.parent with
             | .error e => .error e
             | .ok parent_df =>
               match strat gatedoc gkwargs s1.2 s2.2 parent_df with
               | none => .error ("strategy raised")
               | some out => update_populations s2.1 out.1 parent_df out.2 gatedoc.parent)
    match run with
    | .ok g2 => (g2, none)
    | .error e => (g, some e)

/-- the per-child loop of `Gating.edit_gate`: for each declared child, replace
its geometry, recompute its index from the new geometry against the current
parent dataframe, and record its dependents and immediate children.  A
failure propagates with the partially mutated state, as the exception does in
the source. -/
def edit_loop (ext : GatingExt) (g : Gating) (children : List String)
    (updated_geom : List (String × Geom)) (eff imm : List String) :
    Gating × List String × List String × Option String :=
  match children with
  | [] => (g, eff, imm, none)
  | c :: rest =>
    match alookup updated_geom c with
    | none => (g, eff, imm, some ("AssertionError: missing child geometry"))
    | some ug =>
      match alookup g.populations c with
      | none => (g, eff, imm, some ("KeyError: population"))
      | some node =>
        let g1 := { g with populations := dset g.populations c ({ node with geom := some ug }) }
        match update_index ext g1 c ug with
        | .error e => (g1, eff, imm, some e)
        | .ok idx =>
          let pops2 := dset g1.populations c ({ node with geom := some ug, index := idx })
          let g2 := { g1 with populations := pops2 }
          match find_dependencies g2 c with
          | none => (g2, eff, imm, some ("population vanished"))
          | some deps =>
            let imms := (g2.populations.filter (fun kv => kv.2.parent == some c)).map
              (fun kv => kv.2.name)
            edit_loop ext g2 rest updated_geom (eff ++ deps) (imm ++ imms)

/-- `Gating.edit_gate`: replace the geometry of every child of a gate and
recompute their indices; with `delete` (the default) all populations
downstream of the immediate children of the edited populations are removed,
since their indices were not recomputed. -/
def edit_gate (ext : GatingExt) (g : Gating) (gate_name : String)
    (updated_geom : List (String × Geom)) (delete : Bool) : Gating × Option String :=
  match alookup g.gates gate_name with
  | none => (g, some ("AssertionError: invalid gate"))
  | some gate =>
    match edit_loop ext g gate.children updated_geom [] [] with
    | (g1, _, _, some e) => (g1, some e)
    | (g1, _, imm, none) =>
      let g2 := if delete then imm.foldl (fun acc c => remove_population acc c) g1 else g1
      (g2, none)

/-- Boolean form of the population-tree index invariant: every node whose
named parent is present in the tree has an index contained in the parent's
index. -/
def invB (g : Gating) : Bool :=
  g.populations.all (fun kv =>
    match kv.2.parent with
    | none => true
    | some par =>
      match alookup g.populations par with
      | none => true
      | some q => kv.2.index.all (fun i => q.index.contains i))

/-- the population-tree index invariant of the spec (section 3): for every
non-root population, `index` is a subset of the parent's `index`. -/
def Inv (g : Gating) : Prop := invB g = true

/-- structural well-formedness of an engine state, maintained by every
reachable state of the source: population dictionary keys are unique, each
node records its own key as its name, and every referenced parent is present
in the dictionary. -/
structure TreeWf (g : Gating) : Prop where
  nodup : (g.populations.map Prod.fst).Nodup
  names : ∀ kv ∈ g.populations, kv.2.name = kv.1
  closed : ∀ kv ∈ g.populations,
    (match kv.2.parent with
     | none => true
     | some par => (alookup g.populations par).isSome) = true

/-- Boolean form of: no declared child of a gate is the tree-parent of
another declared child.  The children of one gate are created as siblings
under the gate's parent population, so this holds for every gate the engine
creates. -/
def noChildParentB (g : Gating) (cs : List String) : Bool :=
  cs.all (fun c =>
    match alookup g.populations c with
    | none => true
    | some orig =>
      match orig.parent with
      | none => true
      | some par => !(cs.contains par))

def NoChildParent (g : Gating) (cs : List String) : Prop := noChildParentB g cs = true

/-- relation between the engine state `g0` entering `edit_gate` and an
intermediate state `g` of its per-child loop: the population keys are
unchanged, every record still carries its own name, and each entry is either
untouched or is an edited gate child whose name and parent survive and whose
recomputed index lies inside its parent's original index. -/
structure LoopSt (g0 g : Gating) (cs : List String) : Prop where
  keys : g.populations.map Prod.fst = g0.populations.map Prod.fst
  names : ∀ kv ∈ g.populations, kv.2.name = kv.1
  ent : ∀ n : String, alookup g.populations n = alookup g0.populations n ∨
    (n ∈ cs ∧ ∃ node0 node, alookup g0.populations n = some node0 ∧
      alookup g.populations n = some node ∧ node.name = node0.name ∧
      node.parent = node0.parent ∧
      ∀ par P, node0.parent = some par → alookup g0.populations par = some P →
        node.index.toFinset ⊆ P.index.toFinset)

/-- a two-channel event row used by the concrete test states. -/
def rowOf (i : Nat) (a b : ℚ) : Row :=
  ⟨i, [(("x"), a), (("y"), b)]⟩

/-- concrete primary data: four events. -/
def demoData : List Row :=
  [rowOf 1 1 1, rowOf 2 2 2, rowOf 3 3 3, rowOf 4 4 4]

/-- the geometry the engine gives the root node at initialization. -/
def rootGeom : Geom :=
  [(("shape"), GVal.vnone), (("x"), GVal.vstr ("FSC-A")), (("y"), GVal.vstr ("SSC-A"))]

/-- a one-dimensional threshold geometry over the demo channels. -/
def threshGeomPos : Geom :=
  [(("shape"), GVal.vstr ("threshold")), (("x"), GVal.vstr ("x")), (("y"), GVal.vstr ("y")),
   (("transform_x"), GVal.vnone), (("transform_y"), GVal.vnone),
   (("threshold"), GVal.vnum 3), (("definition"), GVal.vstr ("+"))]

def demoRoot : PNode :=
  ⟨("root"), none, [1, 2, 3, 4], some rootGeom, 1, 1, []⟩

def demoPos : PNode :=
  ⟨("pos"), some ("root"), [3, 4], some threshGeomPos, 1, 1, []⟩

def demoGate : DGate :=
  ⟨("G1"), [("pos")], ("root"), ("DensityThreshold"), ("gate_1d"), []⟩

/-- a concrete engine state: a root with four events, one committed child
population `pos`, and the gate `G1` that produced it. -/
def gDemo : Gating :=
  { data := demoData, fmo := [], fmo_search_cache := [],
    gates := [(("G1"), demoGate)],
    populations := [(("root"), demoRoot), (("pos"), demoPos)] }

/-- trivial external collaborators for concrete evaluations; the classifier
labels every point positive. -/
def extAll : GatingExt :=
  { pointInPoly := fun _ _ _ _ => true
    insideEllipse := fun _ _ _ _ _ _ _ => true
    transform := fun _ _ v => v
    subsample := fun df => df
    knn := fun _ _ _ => 1
    convexHullCords := fun _ => ([], []) }

/-- a strategy oracle that always fails (never reached by the claims that
use it). -/
def stratNone : StrategyOracle := fun _ _ _ _ _ => none

/-- control data rows for the FMO test state. -/
def fmoRows : List Row :=
  [⟨101, [(("x"), 1), (("y"), 1)]⟩, ⟨102, [(("x"), 2), (("y"), 2)]⟩]

/-- geometry of the FMO demo populations. -/
def fmoGeomA : Geom :=
  [(("shape"), GVal.vstr ("threshold")), (("x"), GVal.vstr ("x")), (("y"), GVal.vstr ("y"))]

def fmoNodeA : PNode :=
  ⟨("A"), some ("root"), [1, 2], some fmoGeomA, 1, 1, []⟩

def fmoNodeB : PNode :=
  ⟨("B"), some ("A"), [1], some fmoGeomA, 1, 1, []⟩

/-- a concrete engine state with one control `f1` whose cache holds the
seeded root entry and a previously predicted entry for population `A`;
population `B` is a child of `A`. -/
def gFmo : Gating :=
  { data := demoData,
    fmo := [(("f1"), fmoRows)],
    fmo_search_cache := [(("f1"), [(("root"), [101, 102]), (("A"), [101])])],
    gates := [],
    populations := [(("root"), demoRoot), (("A"), fmoNodeA), (("B"), fmoNodeB)] }

/-- the engine state produced by subtracting `pos` from `root` in the demo
state (the error branch is never taken on this input). -/
def gSubOut : Gating :=
  (subtraction gDemo [("pos")] ("root") ("neg")).toOption.getD gDemo

end Engine

namespace CData

/-- a concrete threshold geometry shared by the merge witness. -/
def tgDemo : ThresholdGeom := ⟨some ("x"), some ("y"), none, none, some 2, none⟩

/-- trivial shapely externals for the polygon branch (unused on the
threshold path). -/
def polyExtDemo : PolyExt := ⟨fun _ _ => true, fun _ _ => ([], [])⟩

/-- the positive threshold child of the merge scenario. -/
def popL : Population :=
  ⟨("pos"), 1, ("root"), [], [2], .threshold tgDemo, ("+"), [], [], []⟩

/-- the negative threshold child of the merge scenario. -/
def popR : Population :=
  ⟨("neg"), 1, ("root"), [], [1], .threshold tgDemo, ("-"), [], [], []⟩

end CData

/-! ## Helper lemmas -/

theorem alookup_cons_self {α : Type} {hk : String} {hv : α} {t : List (String × α)} {k : String}
    (h : (hk == k) = true) : alookup ((hk, hv) :: t) k = some hv := by
  simp [alookup, List.find?_cons, h]

theorem alookup_cons_ne {α : Type} {hk : String} {hv : α} {t : List (String × α)} {k : String}
    (h : (hk == k) = false) : alookup ((hk, hv) :: t) k = alookup t k := by
  simp [alookup, List.find?_cons, h]

theorem alookup_mem {α : Type} {l : List (String × α)} {k : String} {v : α}
    (h : alookup l k = some v) : (k, v) ∈ l := by
  induction l with
  | nil => simp [alookup] at h
  | cons hd tl ih =>
    by_cases hh : (hd.1 == k) = true
    · obtain ⟨a, b⟩ := hd
      rw [alookup_cons_self hh] at h
      have h1 : a = k := by simpa using hh
      have h2 : b = v := by simpa using h
      subst h1; subst h2
      exact List.mem_cons_self _ _
    · obtain ⟨a, b⟩ := hd
      rw [alookup_cons_ne (by simpa using hh)] at h
      exact List.mem_cons_of_mem _ (ih h)

theorem alookup_none_forall {α : Type} {l : List (String × α)} {k : String}
    (h : alookup l k = none) : ∀ kv ∈ l, (kv.1 == k) = false := by
  induction l with
  | nil => intro kv hkv; simp at hkv
  | cons hd tl ih =>
    intro kv hkv
    by_cases hh : (hd.1 == k) = true
    · obtain ⟨a, b⟩ := hd
      rw [alookup_cons_self hh] at h
      simp at h
    · obtain ⟨a, b⟩ := hd
      rw [alookup_cons_ne (by simpa using hh)] at h
      rcases List.mem_cons.mp hkv with rfl | hm
      · simpa using hh
      · exact ih h kv hm

theorem alookup_of_mem_nodup {α : Type} {l : List (String × α)} {k : String} {v : α}
    (hn : (l.map Prod.fst).Nodup) (h : (k, v) ∈ l) : alookup l k = some v := by
  induction l with
  | nil => simp at h
  | cons hd tl ih =>
    rcases List.mem_cons.mp h with rfl | hm
    · exact alookup_cons_self (by simp)
    · obtain ⟨a, b⟩ := hd
      have hn2 := hn
      simp only [List.map_cons, List.nodup_cons] at hn2
      have hak : (a == k) = false := by
        rcases hn2 with ⟨hna, _⟩
        have : k ∈ tl.map Prod.fst := List.mem_map_of_mem Prod.fst hm
        by_contra hc
        rw [Bool.not_eq_false] at hc
        have : a = k := by simpa using hc
        subst this
        exact hna (by simpa using List.mem_map_of_mem Prod.fst hm)
      rw [alookup_cons_ne hak]
      exact ih hn2.2 hm

theorem alookup_map_set_hit {α : Type} (l : List (String × α)) (k : String) (v : α)
    (h : l.any (fun p => p.1 == k) = true) :
    alookup (l.map (fun p => if p.1 == k then (k, v) else p)) k = some v := by
  induction l with
  | nil => simp at h
  | cons hd tl ih =>
    by_cases hh : (hd.1 == k) = true
    · simp only [List.map_cons, if_pos hh]
      exact alookup_cons_self (by simp)
    · simp only [List.any_cons, hh, Bool.false_or] at h
      simp only [List.map_cons, if_neg hh]
      rw [alookup_cons_ne (by simpa using hh)]
      exact ih h

theorem alookup_append_single {α : Type} (l : List (String × α)) (k : String) (v : α)
    (h : l.any (fun p => p.1 == k) = false) :
    alookup (l ++ [(k, v)]) k = some v := by
  induction l with
  | nil => exact alookup_cons_self (by simp)
  | cons hd tl ih =>
    simp only [List.any_cons, Bool.or_eq_false_iff] at h
    rw [List.cons_append, alookup_cons_ne h.1]
    exact ih h.2

theorem beq_symm_false {a b : String} (h : (a == b) = false) : (b == a) = false :=
  beq_eq_false_iff_ne.mpr (Ne.symm (beq_eq_false_iff_ne.mp h))

theorem alookup_dset_self {α : Type} (l : List (String × α)) (k : String) (v : α) :
    alookup (dset l k v) k = some v := by
  unfold dset
  by_cases h : l.any (fun p => p.1 == k) = true
  · rw [if_pos h]; exact alookup_map_set_hit l k v h
  · rw [if_neg h]
    exact alookup_append_single l k v (Bool.eq_false_iff.mpr h)

theorem alookup_map_set_ne {α : Type} (l : List (String × α)) (k q : String) (v : α)
    (h : (q == k) = false) :
    alookup (l.map (fun p => if p.1 == k then (k, v) else p)) q = alookup l q := by
  have hkq : (k == q) = false := beq_symm_false h
  induction l with
  | nil => rfl
  | cons hd tl ih =>
    obtain ⟨a, b⟩ := hd
    by_cases hh : (a == k) = true
    · have hk : a = k := by simpa using hh
      have haq : (a == q) = false := by rw [hk]; exact hkq
      simp only [List.map_cons, if_pos hh]
      rw [alookup_cons_ne hkq, alookup_cons_ne haq]
      exact ih
    · simp only [List.map_cons]
      rw [if_neg hh]
      by_cases hq : (a == q) = true
      · rw [alookup_cons_self hq, alookup_cons_self hq]
      · have hq2 : (a == q) = false := Bool.eq_false_iff.mpr hq
        rw [alookup_cons_ne hq2, alookup_cons_ne hq2]
        exact ih

theorem alookup_append_single_ne {α : Type} (l : List (String × α)) (k q : String) (v : α)
    (h : (k == q) = false) : alookup (l ++ [(k, v)]) q = alookup l q := by
  induction l with
  | nil =>
    simp only [List.nil_append]
    rw [alookup_cons_ne h]
  | cons hd tl ih =>
    obtain ⟨a, b⟩ := hd
    by_cases hq : (a == q) = true
    · rw [List.cons_append, alookup_cons_self hq, alookup_cons_self hq]
    · have hq2 : (a == q) = false := Bool.eq_false_iff.mpr hq
      rw [List.cons_append, alookup_cons_ne hq2, alookup_cons_ne hq2]
      exact ih

theorem alookup_dset_ne {α : Type} (l : List (String × α)) (k q : String) (v : α)
    (h : (q == k) = false) : alookup (dset l k v) q = alookup l q := by
  unfold dset
  by_cases ha : l.any (fun p => p.1 == k) = true
  · rw [if_pos ha]; exact alookup_map_set_ne l k q v h
  · rw [if_neg ha]
    exact alookup_append_single_ne l k q v (beq_symm_false h)

theorem round2_zero : round2 0 = 0 := by decide

theorem alookup_map_round (vals : List (String × ℚ)) (c : String) :
    alookup (vals.map (fun kv => (kv.1, round2 kv.2))) c = (alookup vals c).map round2 := by
  induction vals with
  | nil => rfl
  | cons hd tl ih =>
    obtain ⟨a, b⟩ := hd
    by_cases h : (a == c) = true
    · simp only [List.map_cons]
      rw [alookup_cons_self h, alookup_cons_self h]
      rfl
    · simp only [List.map_cons]
      rw [alookup_cons_ne (by simpa using h), alookup_cons_ne (by simpa using h)]
      exact ih

namespace Engine

theorem getVal_round_row2 (r : Row) (c : String) :
    getVal (round_row2 r) c = round2 (getVal r c) := by
  unfold getVal round_row2
  simp only []
  rw [alookup_map_round]
  cases alookup r.vals c with
  | none => simp [round2_zero]
  | some v => simp

theorem npUnique_perm_dedup (l : List Nat) : (npUnique l).Perm l.dedup := by
  unfold npUnique
  exact List.perm_insertionSort _ _

theorem dedup_toFinset (l : List Nat) : l.dedup.toFinset = l.toFinset := by
  ext a
  simp [List.mem_toFinset, List.mem_dedup]

theorem npUnique_toFinset (l : List Nat) : (npUnique l).toFinset = l.toFinset := by
  rw [List.toFinset_eq_of_perm _ _ (npUnique_perm_dedup l), dedup_toFinset]

theorem npUnique_length (l : List Nat) : (npUnique l).length = l.toFinset.card := by
  rw [(npUnique_perm_dedup l).length_eq, List.card_toFinset]

theorem npUnique_nodup (l : List Nat) : (npUnique l).Nodup :=
  ((npUnique_perm_dedup l).nodup_iff).mpr (List.nodup_dedup l)

theorem npSetdiff_toFinset (a b : List Nat) :
    (npSetdiff a b).toFinset = a.toFinset \ b.toFinset := by
  unfold npSetdiff
  rw [npUnique_toFinset]
  ext i
  simp [List.mem_toFinset, List.mem_filter]

theorem locRows_map_id {ds : List Row} :
    ∀ {idx : List Nat} {rows : List Row}, locRows ds idx = Except.ok rows →
      rows.map Row.id = idx := by
  intro idx
  induction idx with
  | nil => intro rows h; cases h; rfl
  | cons i t ih =>
    intro rows h
    unfold locRows at h
    cases hf : ds.find? (fun r => r.id == i) with
    | none =>
      rw [hf] at h
      cases ht : locRows ds t with
      | error e => rw [ht] at h; simp at h
      | ok l => rw [ht] at h; simp at h
    | some r =>
      rw [hf] at h
      cases ht : locRows ds t with
      | error e => rw [ht] at h; simp at h
      | ok l =>
        rw [ht] at h
        simp only at h
        cases h
        have hr : r.id = i := by simpa using List.find?_some hf
        simp [hr, ih ht]

theorem locRows_mem {ds : List Row} :
    ∀ {idx : List Nat} {rows : List Row}, locRows ds idx = Except.ok rows →
      ∀ r ∈ rows, r ∈ ds := by
  intro idx
  induction idx with
  | nil => intro rows h; cases h; intro r hr; simp at hr
  | cons i t ih =>
    intro rows h
    unfold locRows at h
    cases hf : ds.find? (fun r => r.id == i) with
    | none =>
      rw [hf] at h
      cases ht : locRows ds t with
      | error e => rw [ht] at h; simp at h
      | ok l => rw [ht] at h; simp at h
    | some r =>
      rw [hf] at h
      cases ht : locRows ds t with
      | error e => rw [ht] at h; simp at h
      | ok l =>
        rw [ht] at h
        simp only at h
        cases h
        intro x hx
        rcases List.mem_cons.mp hx with rfl | hm
        · exact List.mem_of_find?_eq_some hf
        · exact ih ht x hm

theorem locRows_length {ds : List Row} {idx : List Nat} {rows : List Row}
    (h : locRows ds idx = Except.ok rows) : rows.length = idx.length := by
  have := locRows_map_id h
  calc rows.length = (rows.map Row.id).length := (List.length_map _ _).symm
    _ = idx.length := by rw [this]

theorem mem_filter_map_id {p : List Row} {q : Row → Bool} {i : Nat} :
    i ∈ (p.filter q).map Row.id ↔ ∃ r, r ∈ p ∧ q r = true ∧ r.id = i := by
  constructor
  · intro h
    rcases List.mem_map.mp h with ⟨r, hr, hid⟩
    rcases List.mem_filter.mp hr with ⟨hm, hq⟩
    exact ⟨r, hm, hq, hid⟩
  · rintro ⟨r, hm, hq, hid⟩
    exact List.mem_map.mpr ⟨r, List.mem_filter.mpr ⟨hm, hq⟩, hid⟩

theorem geom_bool_pp (xcol ycol : String) (tx ty : ℚ) (p : List Row) :
    geom_bool xcol ycol tx ty ("++") p =
      Except.ok ((p.filter (fun r =>
        decide (round2 tx < round2 (getVal r xcol)) &&
        decide (round2 ty < round2 (getVal r ycol)))).map Row.id) := by
  have hc : (("++" : String) == "++") = true := by decide
  unfold geom_bool
  rw [if_pos hc, List.filter_map, List.map_map]
  have hid : Row.id ∘ round_row2 = Row.id := by funext r; rfl
  rw [hid]
  congr 1
  congr 1
  apply List.filter_congr
  intro r _
  simp [Function.comp, getVal_round_row2]

theorem geom_bool_mm (xcol ycol : String) (tx ty : ℚ) (p : List Row) :
    geom_bool xcol ycol tx ty ("--") p =
      Except.ok ((p.filter (fun r =>
        decide (round2 (getVal r xcol) < round2 tx) &&
        decide (round2 (getVal r ycol) < round2 ty))).map Row.id) := by
  have hc1 : (("--" : String) == "++") = false := by decide
  have hc : (("--" : String) == "--") = true := by decide
  unfold geom_bool
  rw [if_neg (by rw [hc1]; exact Bool.false_ne_true), if_pos hc,
      List.filter_map, List.map_map]
  have hid : Row.id ∘ round_row2 = Row.id := by funext r; rfl
  rw [hid]
  congr 1
  congr 1
  apply List.filter_congr
  intro r _
  simp [Function.comp, getVal_round_row2]

theorem geom_bool_pm (xcol ycol : String) (tx ty : ℚ) (p : List Row) :
    geom_bool xcol ycol tx ty ("+-") p =
      Except.ok ((p.filter (fun r =>
        decide (round2 tx < round2 (getVal r xcol)) &&
        decide (round2 (getVal r ycol) < round2 ty))).map Row.id) := by
  have hc1 : (("+-" : String) == "++") = false := by decide
  have hc2 : (("+-" : String) == "--") = false := by decide
  have hc : (("+-" : String) == "+-") = true := by decide
  unfold geom_bool
  rw [if_neg (by rw [hc1]; exact Bool.false_ne_true),
      if_neg (by rw [hc2]; exact Bool.false_ne_true), if_pos hc,
      List.filter_map, List.map_map]
  have hid : Row.id ∘ round_row2 = Row.id := by funext r; rfl
  rw [hid]
  congr 1
  congr 1
  apply List.filter_congr
  intro r _
  simp [Function.comp, getVal_round_row2]

theorem geom_bool_mp (xcol ycol : String) (tx ty : ℚ) (p : List Row) :
    geom_bool xcol ycol tx ty ("-+") p =
      Except.ok ((p.filter (fun r =>
        decide (round2 (getVal r xcol) < round2 tx) &&
        decide (round2 ty < round2 (getVal r ycol)))).map Row.id) := by
  have hc1 : (("-+" : String) == "++") = false := by decide
  have hc2 : (("-+" : String) == "--") = false := by decide
  have hc3 : (("-+" : String) == "+-") = false := by decide
  have hc : (("-+" : String) == "-+") = true := by decide
  unfold geom_bool
  rw [if_neg (by rw [hc1]; exact Bool.false_ne_true),
      if_neg (by rw [hc2]; exact Bool.false_ne_true),
      if_neg (by rw [hc3]; exact Bool.false_ne_true), if_pos hc,
      List.filter_map, List.map_map]
  have hid : Row.id ∘ round_row2 = Row.id := by funext r; rfl
  rw [hid]
  congr 1
  congr 1
  apply List.filter_congr
  intro r _
  simp [Function.comp, getVal_round_row2]

theorem disjoint_filter_map_id {p : List Row} (hnd : (p.map Row.id).Nodup)
    {q1 q2 : Row → Bool} (hq : ∀ r ∈ p, ¬(q1 r = true ∧ q2 r = true)) {i : Nat}
    (h1 : i ∈ (p.filter q1).map Row.id) : i ∉ (p.filter q2).map Row.id := by
  intro h2
  rcases mem_filter_map_id.mp h1 with ⟨r1, hm1, hb1, hi1⟩
  rcases mem_filter_map_id.mp h2 with ⟨r2, hm2, hb2, hi2⟩
  have hr : r1 = r2 := List.inj_on_of_nodup_map hnd hm1 hm2 (by rw [hi1, hi2])
  subst hr
  exact hq r1 hm1 ⟨hb1, hb2⟩

theorem not_mem_filter_map_id {p : List Row} (hnd : (p.map Row.id).Nodup)
    {q : Row → Bool} {r : Row} (hm : r ∈ p) (hq : q r = false) :
    r.id ∉ (p.filter q).map Row.id := by
  intro h
  rcases mem_filter_map_id.mp h with ⟨r2, hm2, hb2, hi2⟩
  have hr : r2 = r := List.inj_on_of_nodup_map hnd hm2 hm hi2
  subst hr
  rw [hq] at hb2
  exact Bool.false_ne_true hb2

/-- C9: Threshold2D membership evaluation first rounds both the event values
and the two thresholds to 2 decimal places and then applies strict
comparisons per quadrant: `++` keeps events with x strictly greater than
threshold_x and y strictly greater than threshold_y, `--` keeps both strictly
less, and `+-` / `-+` keep the corresponding mixed strict cases. -/
theorem claim_C9_threshold2d_membership (xcol ycol : String) (tx ty : ℚ)
    (p : List Row) (i : Nat) :
    (∀ l, geom_bool xcol ycol tx ty ("++") p = Except.ok l →
       (i ∈ l ↔ ∃ r, r ∈ p ∧ Row.id r = i ∧
         round2 tx < round2 (getVal r xcol) ∧ round2 ty < round2 (getVal r ycol))) ∧
    (∀ l, geom_bool xcol ycol tx ty ("--") p = Except.ok l →
       (i ∈ l ↔ ∃ r, r ∈ p ∧ Row.id r = i ∧
         round2 (getVal r xcol) < round2 tx ∧ round2 (getVal r ycol) < round2 ty)) ∧
    (∀ l, geom_bool xcol ycol tx ty ("+-") p = Except.ok l →
       (i ∈ l ↔ ∃ r, r ∈ p ∧ Row.id r = i ∧
         round2 tx < round2 (getVal r xcol) ∧ round2 (getVal r ycol) < round2 ty)) ∧
    (∀ l, geom_bool xcol ycol tx ty ("-+") p = Except.ok l →
       (i ∈ l ↔ ∃ r, r ∈ p ∧ Row.id r = i ∧
         round2 (getVal r xcol) < round2 tx ∧ round2 ty < round2 (getVal r ycol))) := by
  refine ⟨?_, ?_, ?_, ?_⟩
  · intro l h
    rw [geom_bool_pp] at h
    injection h with h
    subst h
    rw [mem_filter_map_id]
    simp only [Bool.and_eq_true, decide_eq_true_eq]
    tauto
  · intro l h
    rw [geom_bool_mm] at h
    injection h with h
    subst h
    rw [mem_filter_map_id]
    simp only [Bool.and_eq_true, decide_eq_true_eq]
    tauto
  · intro l h
    rw [geom_bool_pm] at h
    injection h with h
    subst h
    rw [mem_filter_map_id]
    simp only [Bool.and_eq_true, decide_eq_true_eq]
    tauto
  · intro l h
    rw [geom_bool_mp] at h
    injection h with h
    subst h
    rw [mem_filter_map_id]
    simp only [Bool.and_eq_true, decide_eq_true_eq]
    tauto

/-- witness for C9 at a concrete dataset: the single event at (3, 3) lies in
the `++` quadrant of the threshold pair (2, 2). -/
theorem claim_C9_witness :
    (3 : Nat) ∈ [3] ↔ ∃ r, r ∈ [rowOf 3 3 3] ∧ Row.id r = 3 ∧
      round2 2 < round2 (getVal r ("x")) ∧ round2 2 < round2 (getVal r ("y")) :=
  (claim_C9_threshold2d_membership ("x") ("y") 2 2 [rowOf 3 3 3] 3).1 [3] (by decide)

/-- C10 (implicit): for one parent dataset the four Threshold2D quadrant
results are pairwise disjoint, and any event whose rounded x (or y) value
equals the rounded x (or y) threshold belongs to none of the four quadrants,
so the quadrants do not cover the parent index. -/
theorem claim_C10_threshold2d_quadrants (xcol ycol : String) (tx ty : ℚ)
    (p : List Row) (hnd : (p.map Row.id).Nodup)
    (lpp lmm lpm lmp : List Nat)
    (hpp : geom_bool xcol ycol tx ty ("++") p = Except.ok lpp)
    (hqmm : geom_bool xcol ycol tx ty ("--") p = Except.ok lmm)
    (hqpm : geom_bool xcol ycol tx ty ("+-") p = Except.ok lpm)
    (hqmp : geom_bool xcol ycol tx ty ("-+") p = Except.ok lmp) :
    (∀ i, i ∈ lpp → i ∉ lmm ∧ i ∉ lpm ∧ i ∉ lmp) ∧
    (∀ i, i ∈ lmm → i ∉ lpm ∧ i ∉ lmp) ∧
    (∀ i, i ∈ lpm → i ∉ lmp) ∧
    (∀ r ∈ p, (round2 (getVal r xcol) = round2 tx ∨ round2 (getVal r ycol) = round2 ty) →
       r.id ∉ lpp ∧ r.id ∉ lmm ∧ r.id ∉ lpm ∧ r.id ∉ lmp) := by
  rw [geom_bool_pp] at hpp
  rw [geom_bool_mm] at hqmm
  rw [geom_bool_pm] at hqpm
  rw [geom_bool_mp] at hqmp
  injection hpp with hpp
  injection hqmm with hqmm
  injection hqpm with hqpm
  injection hqmp with hqmp
  subst hpp; subst hqmm; subst hqpm; subst hqmp
  refine ⟨?_, ?_, ?_, ?_⟩
  · intro i hi
    refine ⟨?_, ?_, ?_⟩
    · refine disjoint_filter_map_id hnd ?_ hi
      intro r _ hc
      simp only [Bool.and_eq_true, decide_eq_true_eq] at hc
      exact absurd (hc.1.1.trans hc.2.1) (lt_irrefl _)
    · refine disjoint_filter_map_id hnd ?_ hi
      intro r _ hc
      simp only [Bool.and_eq_true, decide_eq_true_eq] at hc
      exact absurd (hc.1.2.trans hc.2.2) (lt_irrefl _)
    · refine disjoint_filter_map_id hnd ?_ hi
      intro r _ hc
      simp only [Bool.and_eq_true, decide_eq_true_eq] at hc
      exact absurd (hc.1.1.trans hc.2.1) (lt_irrefl _)
  · intro i hi
    refine ⟨?_, ?_⟩
    · refine disjoint_filter_map_id hnd ?_ hi
      intro r _ hc
      simp only [Bool.and_eq_true, decide_eq_true_eq] at hc
      exact absurd (hc.1.1.trans hc.2.1) (lt_irrefl _)
    · refine disjoint_filter_map_id hnd ?_ hi
      intro r _ hc
      simp only [Bool.and_eq_true, decide_eq_true_eq] at hc
      exact absurd (hc.1.2.trans hc.2.2) (lt_irrefl _)
  · intro i hi
    refine disjoint_filter_map_id hnd ?_ hi
    intro r _ hc
    simp only [Bool.and_eq_true, decide_eq_true_eq] at hc
    exact absurd (hc.1.1.trans hc.2.1) (lt_irrefl _)
  · intro r hm hb
    refine ⟨?_, ?_, ?_, ?_⟩ <;> refine not_mem_filter_map_id hnd hm ?_
    · rcases hb with hx | hy
      · simp [hx]
      · simp [hy]
    · rcases hb with hx | hy
      · simp [hx]
      · simp [hy]
    · rcases hb with hx | hy
      · simp [hx]
      · simp [hy]
    · rcases hb with hx | hy
      · simp [hx]
      · simp [hy]

/-- witness for C10: with thresholds (1, 1) over two events, the boundary
event with id 1 is excluded from the `++` quadrant. -/
theorem claim_C10_witness : (1 : Nat) ∉ ([2] : List Nat) := by
  have h := claim_C10_threshold2d_quadrants ("x") ("y") 1 1
    [rowOf 1 1 1, rowOf 2 2 2] (by decide) [2] [] [] []
    (by decide) (by decide) (by decide) (by decide)
  have hb := h.2.2.2 (rowOf 1 1 1) (by decide) (Or.inl (by decide))
  exact hb.1

end Engine

namespace CData

/-- C5: merging two Threshold populations with the same parent and identical
x and y thresholds yields a population whose index is the deduplicated set
union of the two input indices (with length exactly the cardinality of the
union, duplicates counted once) and whose definition is the comma
concatenation of the two inputs.  In particular two opposite-sign
Threshold1D children of one parent (computed with the engine rules: plus is
value at least the threshold, minus is value below it) merge to exactly the
parent's index, with definition plus-comma-minus. -/
theorem claim_C5_threshold_merge (ext : PolyExt) (left right : Population)
    (name : String) (lg rg : ThresholdGeom)
    (hl : left.geom = .threshold lg) (hr : right.geom = .threshold rg)
    (hpar : left.parent = right.parent)
    (htx : lg.transform_x = rg.transform_x) (hty : lg.transform_y = rg.transform_y)
    (hx : lg.x = rg.x) (hy : lg.y = rg.y)
    (hxt : lg.x_threshold = rg.x_threshold) (hyt : lg.y_threshold = rg.y_threshold) :
    ∃ pop, merge_populations ext left right (some name) = Except.ok pop ∧
      pop.index.toFinset = left.index.toFinset ∪ right.index.toFinset ∧
      pop.index.length = (left.index.toFinset ∪ right.index.toFinset).card ∧
      pop.definition = left.definition ++ "," ++ right.definition ∧
      pop.index.Nodup ∧
      (∀ (ds : List Row) (xc : String) (th : ℚ),
        left.index = (ds.filter (fun r => decide (th ≤ getVal r xc))).map Row.id →
        right.index = (ds.filter (fun r => decide (getVal r xc < th))).map Row.id →
        pop.index.toFinset = (ds.map Row.id).toFinset) := by
  have h1 : ¬ left.geom.transform_x ≠ right.geom.transform_x := by
    rw [hl, hr]; simpa [PopGeom.transform_x] using htx
  have h2 : ¬ left.geom.transform_y ≠ right.geom.transform_y := by
    rw [hl, hr]; simpa [PopGeom.transform_y] using hty
  have h3 : ¬ left.geom.x ≠ right.geom.x := by
    rw [hl, hr]; simpa [PopGeom.x] using hx
  have h4 : ¬ left.geom.y ≠ right.geom.y := by
    rw [hl, hr]; simpa [PopGeom.y] using hy
  have hchk : _check_transforms_dimensions left right = Except.ok () := by
    unfold _check_transforms_dimensions
    rw [if_neg h1, if_neg h2, if_neg h3, if_neg h4]
  have hmt : _merge_thresholds left right name = Except.ok
      { population_name := name
        n := left.index.length + right.index.length
        parent := left.parent
        warnings := left.warnings ++ right.warnings ++ [("MERGED POPULATION")]
        index := _merge_index left right
        geom := .threshold { x := lg.x, y := lg.y, transform_x := lg.transform_x,
                             transform_y := lg.transform_y,
                             x_threshold := lg.x_threshold, y_threshold := lg.y_threshold }
        definition := left.definition ++ "," ++ right.definition
        clusters := []
        ctrl_index := []
        signature := _merge_signatures left right } := by
    unfold _merge_thresholds
    rw [hl, hr]
    dsimp only
    rw [if_neg (not_not_intro hxt), if_neg (not_not_intro hyt)]
  have hmp : merge_populations ext left right (some name) =
      _merge_thresholds left right name := by
    unfold merge_populations
    rw [hchk]
    dsimp only
    rw [if_neg (not_not_intro hpar), hl, hr]
    dsimp only [Option.getD]
  refine ⟨_, hmp.trans hmt, ?_, ?_, ?_, ?_, ?_⟩
  · show (_merge_index left right).toFinset = _
    unfold _merge_index
    rw [Engine.npUnique_toFinset, List.toFinset_append]
  · show (_merge_index left right).length = _
    unfold _merge_index
    rw [Engine.npUnique_length, List.toFinset_append]
  · rfl
  · show (_merge_index left right).Nodup
    unfold _merge_index
    exact Engine.npUnique_nodup _
  · intro ds xc th hil hir
    show (_merge_index left right).toFinset = _
    unfold _merge_index
    rw [Engine.npUnique_toFinset, List.toFinset_append, hil, hir]
    ext i
    simp only [Finset.mem_union, List.mem_toFinset, List.mem_map, List.mem_filter,
               decide_eq_true_eq]
    constructor
    · rintro (⟨r, ⟨hm, _⟩, hid⟩ | ⟨r, ⟨hm, _⟩, hid⟩) <;> exact ⟨r, hm, hid⟩
    · rintro ⟨r, hm, hid⟩
      rcases le_or_lt th (getVal r xc) with hcase | hcase
      · exact Or.inl ⟨r, ⟨hm, hcase⟩, hid⟩
      · exact Or.inr ⟨r, ⟨hm, hcase⟩, hid⟩

/-- witness for C5 at concrete populations: the opposite-sign threshold
children with indices [2] and [1] under threshold 2 on channel x. -/
theorem claim_C5_witness :
    ∃ pop, merge_populations polyExtDemo popL popR (some ("combined")) = Except.ok pop ∧
      pop.index.toFinset = popL.index.toFinset ∪ popR.index.toFinset ∧
      pop.index.length = (popL.index.toFinset ∪ popR.index.toFinset).card ∧
      pop.definition = popL.definition ++ "," ++ popR.definition ∧
      pop.index.Nodup ∧
      (∀ (ds : List Row) (xc : String) (th : ℚ),
        popL.index = (ds.filter (fun r => decide (th ≤ getVal r xc))).map Row.id →
        popR.index = (ds.filter (fun r => decide (getVal r xc < th))).map Row.id →
        pop.index.toFinset = (ds.map Row.id).toFinset) :=
  claim_C5_threshold_merge polyExtDemo popL popR ("combined") tgDemo tgDemo
    rfl rfl rfl rfl rfl rfl rfl rfl rfl

end CData

theorem contains_of_mem {α : Type} [BEq α] [LawfulBEq α] {a : α} {l : List α}
    (h : a ∈ l) : l.contains a = true := by
  induction l with
  | nil => simp at h
  | cons hd tl ih =>
    rcases List.mem_cons.mp h with rfl | hm
    · simp [List.contains_cons]
    · simp only [List.contains_cons, ih hm, Bool.or_true]

theorem mem_of_contains {α : Type} [BEq α] [LawfulBEq α] {a : α} {l : List α}
    (h : l.contains a = true) : a ∈ l := by
  induction l with
  | nil => simp [List.contains_cons] at h
  | cons hd tl ih =>
    rcases (by simpa [List.contains_cons] using h : a = hd ∨ tl.contains a = true) with rfl | hm
    · exact List.mem_cons_self _ _
    · exact List.mem_cons_of_mem _ (ih hm)

theorem alookup_filter_out {α : Type} (l : List (String × α)) (P : String → Bool) (k : String)
    (hk : P k = true) :
    alookup (l.filter (fun kv => !(P kv.1))) k = none := by
  induction l with
  | nil => rfl
  | cons hd tl ih =>
    rw [List.filter_cons]
    by_cases hp : P hd.1 = true
    · rw [if_neg (by simp [hp])]
      exact ih
    · have hp2 : P hd.1 = false := Bool.eq_false_iff.mpr hp
      rw [if_pos (by simp [hp2])]
      have hne : (hd.1 == k) = false := by
        by_contra hc
        have hc2 : (hd.1 == k) = true := Bool.not_eq_false _ |>.mp hc
        have : hd.1 = k := by simpa using hc2
        rw [this, hk] at hp2
        simp at hp2
      rw [alookup_cons_ne hne]
      exact ih

namespace Engine

/-- C3 (amended): `remove_gate` with `propagate=False` always removes the
gate itself from the registry, without error and without touching any
population, even when the gate's declared children are committed
populations. -/
theorem claim_C3_remove_gate_no_propagate (g : Gating) (name : String) (gate : DGate)
    (h : alookup g.gates name = some gate) :
    remove_gate g name false = ({ g with gates := dpop g.gates name }, RemoveGateOut.simple) := by
  unfold remove_gate
  rw [h]
  dsimp only
  rw [if_pos (by simp)]

/-- counterexample to C3 as stated: in `gDemo` the gate G1 has the committed
child population pos, yet `remove_gate` with `propagate=False` is not
rejected: it removes G1 from the registry and returns the success value. -/
theorem claim_C3_counterexample :
    alookup (remove_gate gDemo ("G1") false).1.gates ("G1") = none ∧
    (remove_gate gDemo ("G1") false).2 = RemoveGateOut.simple ∧
    alookup gDemo.gates ("G1") = some demoGate ∧
    demoGate.children = [("pos")] ∧
    alookup gDemo.populations ("pos") = some demoPos := by
  refine ⟨by decide, by decide, by decide, by decide, by decide⟩

/-- witness for the amended C3 at the concrete state. -/
theorem claim_C3_witness :
    remove_gate gDemo ("G1") false =
      ({ gDemo with gates := dpop gDemo.gates ("G1") }, RemoveGateOut.simple) :=
  claim_C3_remove_gate_no_propagate gDemo ("G1") demoGate (by decide)

/-- C4 (amended): removing the root population is not rejected:
`remove_population` on the root removes the root itself together with every
population whose path passes through it. -/
theorem claim_C4_root_removal (g : Gating) (r : PNode)
    (h : alookup g.populations ("root") = some r) :
    alookup (remove_population g ("root")).populations ("root") = none ∧
    ∀ kv ∈ (remove_population g ("root")).populations,
      ("root" : String) ∉ pathNames g kv.1 := by
  have hmem : ("root" : String) ∈ pathNames g ("root") := by
    simp [pathNames, parent_chain, h]
  have hkeys : ("root" : String) ∈ g.populations.map Prod.fst := by
    exact List.mem_map_of_mem Prod.fst (alookup_mem h)
  have hmemf : ("root" : String) ∈
      (g.populations.map Prod.fst).filter (fun n => (pathNames g n).contains ("root")) :=
    List.mem_filter.mpr ⟨hkeys, contains_of_mem hmem⟩
  have hdeps : find_dependencies g ("root") =
      some ((g.populations.map Prod.fst).filter (fun n => (pathNames g n).contains ("root"))) := by
    unfold find_dependencies
    rw [h]
    simp
  have hrp : (remove_population g ("root")).populations =
      g.populations.filter (fun kv =>
        !(((g.populations.map Prod.fst).filter
            (fun n => (pathNames g n).contains ("root"))).contains kv.1)) := by
    unfold remove_population
    rw [hdeps]
  constructor
  · rw [hrp]
    exact alookup_filter_out _ _ _ (contains_of_mem hmemf)
  · intro kv hkv hroot
    rw [hrp] at hkv
    obtain ⟨hkvm, hflt⟩ := List.mem_filter.mp hkv
    have hcf : (((g.populations.map Prod.fst).filter
        (fun n => (pathNames g n).contains ("root"))).contains kv.1) = false := by
      simpa using hflt
    have hin : kv.1 ∈ (g.populations.map Prod.fst).filter
        (fun n => (pathNames g n).contains ("root")) :=
      List.mem_filter.mpr ⟨List.mem_map_of_mem Prod.fst hkvm, contains_of_mem hroot⟩
    rw [contains_of_mem hin] at hcf
    simp at hcf

/-- counterexample to C4 as stated: removing the root in `gDemo` is not
rejected and does not leave the tree unchanged; it empties the tree. -/
theorem claim_C4_counterexample :
    (remove_population gDemo ("root")).populations = [] ∧ gDemo.populations ≠ [] := by
  refine ⟨by decide, by decide⟩

/-- witness for the amended C4 at the concrete state. -/
theorem claim_C4_witness :
    alookup (remove_population gDemo ("root")).populations ("root") = none ∧
    ∀ kv ∈ (remove_population gDemo ("root")).populations,
      ("root" : String) ∉ pathNames gDemo kv.1 :=
  claim_C4_root_removal gDemo demoRoot (by decide)

/-- C7: applying a gate name that was never registered signals a validation
error and returns with the engine state exactly as before the call: same
populations (hence same population count and indices) and same gate
registry. -/
theorem claim_C7_apply_unknown_gate (ext : GatingExt) (strat : StrategyOracle)
    (g : Gating) (gate_name : String) (kwargs : List (String × GVal))
    (h : alookup g.gates gate_name = none) :
    apply ext strat g gate_name kwargs =
      (g, some ("ValidationError: apply checks failed")) := by
  unfold apply apply_checks
  rw [h]

/-- witness for C7 at the concrete state. -/
theorem claim_C7_witness :
    apply extAll stratNone gDemo ("NOGATE") [] =
      (gDemo, some ("ValidationError: apply checks failed")) :=
  claim_C7_apply_unknown_gate extAll stratNone gDemo ("NOGATE") [] (by decide)

/-- C2 (evaluation of the code at the failing input): in `gFmo` the control
f1 already caches an index for population A, and B is a child of A; the
claim says a call for B resumes from the cached entry of A and re-predicts
only the populations strictly below A (only B).  The code instead tests each
population name against the keys of the outer cache dictionary (the control
names) rather than the per-control cache, never finds the cached ancestor,
and re-trains a classifier for A as well: the training trace is [A, B]. -/
theorem claim_C2_fmo_cache_walk_bug :
    search_fmo_cache gFmo ("A") ("f1") = Except.ok (some [101]) ∧
    (get_fmo_data extAll gFmo ("B") ("f1") none).map (fun r => r.2.2) =
      Except.ok [("A"), ("B")] := by
  refine ⟨by decide, by decide⟩

/-- C8 (amended): once a (control, population) pair has a cache entry, a
`get_fmo_data` call for that pair returns exactly the control rows at the
cached index, without invoking the classifier and leaving the engine state
unchanged; but entries are not immutable: a call for a descendant population
re-predicts every population along the walked path and rewrites their cache
entries, possibly with a different index. -/
theorem claim_C8_fmo_cache :
    (∀ (ext : GatingExt) (g : Gating) (target fmo : String)
       (sml : Option (List (String × String × String)))
       (idx : List Nat) (fmoDf rows : List Row),
       search_fmo_cache g target fmo = Except.ok (some idx) →
       alookup g.fmo fmo = some fmoDf →
       locRows fmoDf idx = Except.ok rows →
       get_fmo_data ext g target fmo sml = Except.ok (rows, g, [])) ∧
    (∃ old now : List Nat, search_fmo_cache gFmo ("A") ("f1") = Except.ok (some old) ∧
       (get_fmo_data extAll gFmo ("B") ("f1") none).map
         (fun r => alookup ((alookup r.2.1.fmo_search_cache ("f1")).getD []) ("A")) =
         Except.ok (some now) ∧ old ≠ now) := by
  constructor
  · intro ext g target fmo sml idx fmoDf rows h1 h2 h3
    unfold get_fmo_data
    rw [h1]
    dsimp only
    rw [h2]
    dsimp only
    rw [h3]
  · exact ⟨[101], [101, 102], by decide, by decide, by decide⟩

/-- witness for the hit path of C8 at the concrete state: population A is
cached for control f1, and the call returns the cached rows with the state
untouched and no training. -/
theorem claim_C8_witness :
    get_fmo_data extAll gFmo ("A") ("f1") none =
      Except.ok ([⟨101, [(("x"), 1), (("y"), 1)]⟩], gFmo, []) :=
  (claim_C8_fmo_cache).1 extAll gFmo ("A") ("f1") none [101] fmoRows
    [⟨101, [(("x"), 1), (("y"), 1)]⟩] (by decide) (by decide) (by decide)

/-- counterexample to C8 as stated ("no operation ever evicts or overwrites
an existing cache entry"): the cached entry [101] of (f1, A) is overwritten
with [101, 102] by a later `get_fmo_data` call for the descendant B. -/
theorem claim_C8_counterexample :
    search_fmo_cache gFmo ("A") ("f1") = Except.ok (some [101]) ∧
    (get_fmo_data extAll gFmo ("B") ("f1") none).map
      (fun r => alookup ((alookup r.2.1.fmo_search_cache ("f1")).getD []) ("A")) =
      Except.ok (some [101, 102]) := by
  refine ⟨by decide, by decide⟩

theorem update_populations_single (g : Gating) (c : ChildPop) (parent_df : List Row)
    (warnings : List String) (parent_name : String) (P : PNode)
    (hP : alookup g.populations parent_name = some P)
    (hnz : c.index.length ≠ 0 → parent_df.length ≠ 0 ∧ g.data.length ≠ 0) :
    ∃ node : PNode, node.name = c.name ∧ node.parent = some parent_name ∧
      node.index = c.index ∧ node.geom = c.geom ∧ node.warnings = warnings ∧
      update_populations g [c] parent_df warnings parent_name =
        Except.ok { g with populations := dset g.populations c.name node } := by
  unfold update_populations
  rw [hP]
  dsimp only
  by_cases hn : c.index.length = 0
  · rw [if_pos hn]
    exact ⟨_, rfl, rfl, rfl, rfl, rfl, rfl⟩
  · rw [if_neg hn]
    obtain ⟨h1, h2⟩ := hnz hn
    rw [if_neg (not_or.mpr ⟨h1, h2⟩)]
    exact ⟨_, rfl, rfl, rfl, rfl, rfl, rfl⟩

theorem foldr_append_toFinset (g : Gating) (targets : List String) :
    (targets.foldr (fun t acc =>
        ((alookup g.populations t).map PNode.index).getD [] ++ acc) []).toFinset
      = targets.foldr (fun t acc =>
          (((alookup g.populations t).map PNode.index).getD []).toFinset ∪ acc) ∅ := by
  induction targets with
  | nil => simp
  | cons t ts ih => simp [List.toFinset_append, ih]

/-- C6: for a known parent and known targets, subtraction creates a new
population whose index is the parent's index minus the union of all target
indices (a set difference, hence contained in the parent's index), and whose
geometry carries over the parent's x and y axis entries together with the
`sub` shape marker, with no shape recomputation. -/
theorem claim_C6_subtraction (g : Gating) (targets : List String)
    (parent new_name : String) (pnode : PNode) (pg : Geom) (xg yg : GVal)
    (drows : List Row)
    (hp : alookup g.populations parent = some pnode)
    (htar : ∀ t ∈ targets, (alookup g.populations t).isSome = true)
    (hnew : alookup g.populations new_name = none)
    (hne : targets ≠ [])
    (hgeom : pnode.geom = some pg)
    (hx : alookup pg ("x") = some xg) (hy : alookup pg ("y") = some yg)
    (hdrows : locRows g.data pnode.index = Except.ok drows) :
    ∃ g', subtraction g targets parent new_name = Except.ok g' ∧
      ∃ node : PNode, alookup g'.populations new_name = some node ∧
        node.parent = some parent ∧
        node.geom = some [(("x"), xg), (("y"), yg), (("shape"), GVal.vstr ("sub"))] ∧
        node.index.toFinset = pnode.index.toFinset \
          targets.foldr (fun t acc =>
            (((alookup g.populations t).map PNode.index).getD []).toFinset ∪ acc) ∅ ∧
        node.index.toFinset ⊆ pnode.index.toFinset := by
  have hgx : ggetItem pg ("x") = Except.ok xg := by unfold ggetItem; rw [hx]
  have hgy : ggetItem pg ("y") = Except.ok yg := by unfold ggetItem; rw [hy]
  have hall : targets.all (fun t => (alookup g.populations t).isSome) = true :=
    List.all_eq_true.mpr htar
  have hgpd : get_population_df g parent = Except.ok drows := by
    unfold get_population_df
    rw [hp]
    exact hdrows
  have hnz : (npSetdiff pnode.index (npUnique (targets.foldr (fun t acc =>
      ((alookup g.populations t).map PNode.index).getD [] ++ acc) []))).length ≠ 0 →
      drows.length ≠ 0 ∧ g.data.length ≠ 0 := by
    intro hlen
    have hidx : npSetdiff pnode.index (npUnique (targets.foldr (fun t acc =>
        ((alookup g.populations t).map PNode.index).getD [] ++ acc) [])) ≠ [] := by
      intro h0; rw [h0] at hlen; exact hlen rfl
    obtain ⟨i, hi⟩ := List.exists_mem_of_ne_nil _ hidx
    have hip : i ∈ pnode.index.toFinset := by
      have hm := List.mem_toFinset.mpr hi
      rw [npSetdiff_toFinset] at hm
      exact (Finset.mem_sdiff.mp hm).1
    have hpne : pnode.index ≠ [] := by
      intro h0; rw [h0] at hip; simp at hip
    have hdl : drows.length = pnode.index.length := locRows_length hdrows
    constructor
    · rw [hdl]
      intro h0
      exact hpne (List.length_eq_zero.mp h0)
    · have hdr_ne : drows ≠ [] := by
        intro h0
        rw [h0] at hdl
        exact hpne (List.length_eq_zero.mp hdl.symm)
      obtain ⟨r, hr⟩ := List.exists_mem_of_ne_nil _ hdr_ne
      have hrd : r ∈ g.data := locRows_mem hdrows r hr
      intro h0
      rw [List.length_eq_zero] at h0
      rw [h0] at hrd
      simp at hrd
  unfold subtraction
  rw [hp]
  dsimp only
  rw [if_neg (by rw [hall]; simp)]
  rw [if_neg (by rw [hnew]; simp)]
  rw [hgeom]
  dsimp only
  rw [hgx, hgy]
  dsimp only
  rw [if_neg (by simp [List.isEmpty_iff, hne])]
  rw [hgpd]
  dsimp only
  obtain ⟨node, hname, hpar, hidx, hgm, hwarn, hup⟩ :=
    update_populations_single g
      ⟨new_name, some [(("x"), xg), (("y"), yg), (("shape"), GVal.vstr ("sub"))],
        npSetdiff pnode.index (npUnique (targets.foldr (fun t acc =>
          ((alookup g.populations t).map PNode.index).getD [] ++ acc) []))⟩
      drows [] parent pnode hp hnz
  rw [hup]
  dsimp only
  refine ⟨_, rfl, node, ?_, hpar, ?_, ?_, ?_⟩
  · exact alookup_dset_self _ _ _
  · rw [hgm]
  · rw [hidx]
    show (npSetdiff _ _).toFinset = _
    rw [npSetdiff_toFinset, npUnique_toFinset, foldr_append_toFinset]
  · rw [hidx]
    show (npSetdiff _ _).toFinset ⊆ _
    rw [npSetdiff_toFinset]
    exact Finset.sdiff_subset

/-- witness for C6 at the concrete state: subtract `pos` from `root`. -/
theorem claim_C6_witness :
    ∃ g', subtraction gDemo [("pos")] ("root") ("rest") = Except.ok g' ∧
      ∃ node : PNode, alookup g'.populations ("rest") = some node ∧
        node.parent = some ("root") ∧
        node.geom = some [(("x"), GVal.vstr ("FSC-A")), (("y"), GVal.vstr ("SSC-A")),
                          (("shape"), GVal.vstr ("sub"))] ∧
        node.index.toFinset = demoRoot.index.toFinset \
          [("pos")].foldr (fun t acc =>
            (((alookup gDemo.populations t).map PNode.index).getD []).toFinset ∪ acc) ∅ ∧
        node.index.toFinset ⊆ demoRoot.index.toFinset :=
  claim_C6_subtraction gDemo [("pos")] ("root") ("rest") demoRoot rootGeom
    (GVal.vstr ("FSC-A")) (GVal.vstr ("SSC-A")) demoData
    (by decide) (by decide) (by decide) (by decide) (by decide) (by decide) (by decide)
    (by decide)

theorem inv_iff (g : Gating) : Inv g ↔
    ∀ kv ∈ g.populations, ∀ par, kv.2.parent = some par →
      ∀ q, alookup g.populations par = some q →
        kv.2.index.toFinset ⊆ q.index.toFinset := by
  unfold Inv invB
  rw [List.all_eq_true]
  constructor
  · intro h kv hkv par hpar q hq
    have hb := h kv hkv
    rw [hpar] at hb
    dsimp only at hb
    rw [hq] at hb
    dsimp only at hb
    intro i hi
    rw [List.mem_toFinset] at hi
    rw [List.mem_toFinset]
    exact mem_of_contains (List.all_eq_true.mp hb i hi)
  · intro h kv hkv
    cases hpar : kv.2.parent with
    | none => rfl
    | some par =>
      dsimp only
      cases hq : alookup g.populations par with
      | none => rfl
      | some q =>
        dsimp only
        rw [List.all_eq_true]
        intro i hi
        exact contains_of_mem
          (List.mem_toFinset.mp (h kv hkv par hpar q hq (List.mem_toFinset.mpr hi)))

theorem dset_entry_cases {α : Type} (l : List (String × α)) (k : String) (v : α) :
    ∀ kv ∈ dset l k v, kv ∈ l ∨ kv = (k, v) := by
  intro kv hkv
  unfold dset at hkv
  by_cases h : l.any (fun p => p.1 == k) = true
  · rw [if_pos h] at hkv
    rcases List.mem_map.mp hkv with ⟨p, hp, heq⟩
    by_cases hpk : (p.1 == k) = true
    · right; rw [← heq, if_pos hpk]
    · left; rw [← heq, if_neg hpk]; exact hp
  · rw [if_neg h] at hkv
    rcases List.mem_append.mp hkv with hm | hm
    · exact Or.inl hm
    · exact Or.inr (by simpa using hm)

theorem filter_map_id_subset (l : List Row) (q : Row → Bool) :
    ((l.filter q).map Row.id).toFinset ⊆ (l.map Row.id).toFinset := by
  intro i hi
  rw [List.mem_toFinset] at hi
  rw [List.mem_toFinset]
  rcases mem_filter_map_id.mp hi with ⟨r, hm, _, hid⟩
  exact hid ▸ List.mem_map_of_mem Row.id hm

theorem map_id_round (p : List Row) : (p.map round_row2).map Row.id = p.map Row.id := by
  rw [List.map_map]
  have h : Row.id ∘ round_row2 = Row.id := funext (fun r => rfl)
  rw [h]

theorem geom_bool_subset {xcol ycol : String} {tx ty : ℚ} {d : String} {p : List Row}
    {idx : List Nat} (h : geom_bool xcol ycol tx ty d p = Except.ok idx) :
    idx.toFinset ⊆ (p.map Row.id).toFinset := by
  unfold geom_bool at h
  repeat' split at h
  all_goals first
    | exact Except.noConfusion h
    | (injection h with h; subst h
       refine subset_trans (filter_map_id_subset (p.map round_row2) _) ?_
       rw [map_id_round])

theorem geom_bool_list_subset {xcol ycol : String} {tx ty : ℚ} {ds : List String}
    {p : List Row} :
    ∀ {res : List (List Nat)},
      geom_bool_list xcol ycol tx ty ds p = Except.ok res →
      res.flatten.toFinset ⊆ (p.map Row.id).toFinset := by
  induction ds with
  | nil =>
    intro res h
    cases h
    simp
  | cons d rest ih =>
    intro res h
    unfold geom_bool_list at h
    cases hgb : geom_bool xcol ycol tx ty d p with
    | error e => rw [hgb] at h; simp at h
    | ok i =>
      rw [hgb] at h
      cases hgl : geom_bool_list xcol ycol tx ty rest p with
      | error e => rw [hgl] at h; simp at h
      | ok is =>
        rw [hgl] at h
        dsimp only at h
        injection h with h
        subst h
        intro x hx
        rw [List.mem_toFinset, List.flatten_cons] at hx
        rcases List.mem_append.mp hx with hxi | hxs
        · exact geom_bool_subset hgb (List.mem_toFinset.mpr hxi)
        · exact ih hgl (List.mem_toFinset.mpr hxs)

theorem geom_bool_list_flatten_subset {xcol ycol : String} {tx ty : ℚ} {l : List String}
    {p : List Row} {idx : List Nat}
    (h : (geom_bool_list xcol ycol tx ty l p).map List.flatten = Except.ok idx) :
    idx.toFinset ⊆ (p.map Row.id).toFinset := by
  cases hgl : geom_bool_list xcol ycol tx ty l p with
  | error e => rw [hgl] at h; simp [Except.map] at h
  | ok res =>
    rw [hgl] at h
    simp only [Except.map] at h
    injection h with h
    subst h
    exact geom_bool_list_subset hgl

theorem apply_transform_map_id (ext : GatingExt) (m : String) (fs : List String)
    (df : List Row) :
    (apply_transform_model ext m fs df).map Row.id = df.map Row.id := by
  unfold apply_transform_model
  rw [List.map_map]
  have h : (Row.id ∘ fun r : Row =>
      { r with vals := r.vals.map (fun p =>
          if fs.contains p.1 then (p.1, ext.transform m p.1 p.2) else p) }) = Row.id :=
    funext (fun r => rfl)
  rw [h]

theorem maybe_transform_x_map_id (ext : GatingExt) (geom : Geom) (xcol : String)
    (df : List Row) :
    (maybe_transform_x ext geom xcol df).map Row.id = df.map Row.id := by
  unfold maybe_transform_x
  cases gget geom ("transform_x") with
  | vnone => rfl
  | vstr s => exact apply_transform_map_id ext _ _ df
  | vnum q => exact apply_transform_map_id ext _ _ df
  | vstrlist l => exact apply_transform_map_id ext _ _ df
  | vcords a b => exact apply_transform_map_id ext _ _ df
  | vpair a b => exact apply_transform_map_id ext _ _ df

theorem maybe_transform_y_map_id (ext : GatingExt) (geom : Geom) (yv : GVal)
    (df : List Row) :
    (maybe_transform_y ext geom yv df).map Row.id = df.map Row.id := by
  unfold maybe_transform_y
  cases gget geom ("transform_y") <;> cases yv <;>
    first | rfl | exact apply_transform_map_id ext _ _ df

theorem update_index_core_subset {ext : GatingExt} {geom : Geom} {xcol : String}
    {yv : GVal} {parent2 : List Row} {idx : List Nat}
    (h : update_index_core ext geom xcol yv parent2 = Except.ok idx) :
    idx.toFinset ⊆ (parent2.map Row.id).toFinset := by
  unfold update_index_core at h
  split at h
  · exact Except.noConfusion h
  · rename_i shape heq
    by_cases h1 : (shape == GVal.vstr ("threshold")) = true
    · rw [if_pos h1] at h
      repeat'
        first
          | exact Except.noConfusion h
          | (injection h with h; subst h; exact filter_map_id_subset _ _)
          | split at h
          | dsimp only at h
    · rw [if_neg h1] at h
      by_cases h2 : (shape == GVal.vstr ("2d_threshold")) = true
      · rw [if_pos h2] at h
        repeat'
          first
            | exact Except.noConfusion h
            | exact geom_bool_subset h
            | exact geom_bool_list_flatten_subset h
            | split at h
            | dsimp only at h
      · rw [if_neg h2] at h
        by_cases h3 : (shape == GVal.vstr ("rect")) = true
        · rw [if_pos h3] at h
          repeat'
            first
              | exact Except.noConfusion h
              | (injection h with h; subst h; exact filter_map_id_subset _ _)
              | split at h
              | dsimp only at h
        · rw [if_neg h3] at h
          by_cases h4 : (shape == GVal.vstr ("ellipse")) = true
          · rw [if_pos h4] at h
            repeat'
              first
                | exact Except.noConfusion h
                | (injection h with h; subst h; exact filter_map_id_subset _ _)
                | split at h
                | dsimp only at h
          · rw [if_neg h4] at h
            by_cases h5 : (shape == GVal.vstr ("poly")) = true
            · rw [if_pos h5] at h
              repeat'
                first
                  | exact Except.noConfusion h
                  | (injection h with h; subst h; exact filter_map_id_subset _ _)
                  | split at h
                  | dsimp only at h
            · rw [if_neg h5] at h
              exact Except.noConfusion h

theorem get_population_df_ids {g : Gating} {name : String} {node : PNode} {rows : List Row}
    (hn : alookup g.populations name = some node)
    (h : get_population_df g name = Except.ok rows) :
    rows.map Row.id = node.index := by
  unfold get_population_df at h
  rw [hn] at h
  exact locRows_map_id h

theorem update_index_subset {ext : GatingExt} {g : Gating} {c : String} {geom : Geom}
    {idx : List Nat} {node : PNode} {par : String} {P : PNode}
    (hnode : alookup g.populations c = some node)
    (hpar : node.parent = some par)
    (hP : alookup g.populations par = some P)
    (hok : update_index ext g c geom = Except.ok idx) :
    idx.toFinset ⊆ P.index.toFinset := by
  unfold update_index at hok
  rw [hnode] at hok
  dsimp only at hok
  rw [hpar] at hok
  dsimp only at hok
  cases hgpd : get_population_df g par with
  | error e => rw [hgpd] at hok; exact absurd hok (by simp)
  | ok parent0 =>
    rw [hgpd] at hok
    dsimp only at hok
    split at hok
    · exact absurd hok (by simp)
    · split at hok
      · exact absurd hok (by simp)
      · have hsub := update_index_core_subset hok
        rw [maybe_transform_y_map_id, maybe_transform_x_map_id,
            get_population_df_ids hP hgpd] at hsub
        exact hsub

theorem dhas_of_alookup_some {α : Type} {l : List (String × α)} {k : String} {v : α}
    (h : alookup l k = some v) : l.any (fun p => p.1 == k) = true := by
  exact List.any_eq_true.mpr ⟨(k, v), alookup_mem h, by simp⟩

theorem keys_dset_hit {α : Type} (l : List (String × α)) (k : String) (v : α)
    (h : l.any (fun p => p.1 == k) = true) :
    (dset l k v).map Prod.fst = l.map Prod.fst := by
  unfold dset
  rw [if_pos h, List.map_map]
  apply List.map_congr_left
  intro p _
  by_cases hpk : (p.1 == k) = true
  · simp only [Function.comp_apply, if_pos hpk]
    exact (eq_of_beq hpk).symm
  · simp only [Function.comp_apply, if_neg hpk]

theorem keys_dset_fresh {α : Type} (l : List (String × α)) (k : String) (v : α)
    (h : l.any (fun p => p.1 == k) = false) :
    (dset l k v).map Prod.fst = l.map Prod.fst ++ [k] := by
  unfold dset
  rw [if_neg (by simp [h]), List.map_append]
  rfl

theorem alookup_none_not_mem_keys {α : Type} {l : List (String × α)} {k : String}
    (h : alookup l k = none) : k ∉ l.map Prod.fst := by
  intro hc
  rcases List.mem_map.mp hc with ⟨p, hp, hk⟩
  have hb := alookup_none_forall h p hp
  rw [hk] at hb
  simp at hb

theorem alookup_any_eq_false {α : Type} {l : List (String × α)} {k : String}
    (h : alookup l k = none) : l.any (fun p => p.1 == k) = false := by
  rw [Bool.eq_false_iff]
  intro hc
  rcases List.any_eq_true.mp hc with ⟨p, hp, hpk⟩
  have hb := alookup_none_forall h p hp
  rw [hb] at hpk
  exact Bool.noConfusion hpk

theorem mem_keys_alookup_ne_none {α : Type} {l : List (String × α)} {k : String} {v : α}
    (hm : (k, v) ∈ l) (h : alookup l k = none) : False := by
  have hb := alookup_none_forall h (k, v) hm
  simp at hb

theorem inv_insert_fresh (g : Gating) (name : String) (node : PNode)
    (parent_name : String) (P : PNode)
    (hwf : TreeWf g) (hInv : Inv g)
    (hP : alookup g.populations parent_name = some P)
    (hfresh : alookup g.populations name = none)
    (hname : node.name = name)
    (hparent : node.parent = some parent_name)
    (hidx : node.index.toFinset ⊆ P.index.toFinset) :
    TreeWf { g with populations := dset g.populations name node } ∧
    Inv { g with populations := dset g.populations name node } ∧
    alookup (dset g.populations name node) parent_name = some P := by
  have hany : g.populations.any (fun p => p.1 == name) = false :=
    alookup_any_eq_false hfresh
  have hdset : dset g.populations name node = g.populations ++ [(name, node)] := by
    unfold dset
    rw [if_neg (by simp [hany])]
  have hpn : (parent_name == name) = false := by
    rw [beq_eq_false_iff_ne]
    intro he
    rw [he, hfresh] at hP
    exact Option.noConfusion hP
  have hPkeep : alookup (dset g.populations name node) parent_name = some P := by
    rw [alookup_dset_ne _ _ _ _ hpn]
    exact hP
  have hsome_keep : ∀ q : String, (alookup g.populations q).isSome = true →
      (alookup (dset g.populations name node) q).isSome = true := by
    intro q hq
    by_cases hqn : (q == name) = true
    · have : q = name := eq_of_beq hqn
      subst this
      rw [alookup_dset_self]
      rfl
    · rw [alookup_dset_ne _ _ _ _ (Bool.eq_false_iff.mpr hqn)]
      exact hq
  refine ⟨⟨?_, ?_, ?_⟩, ?_, hPkeep⟩
  · -- keys stay duplicate free
    show ((dset g.populations name node).map Prod.fst).Nodup
    rw [hdset, List.map_append]
    rw [List.nodup_append]
    refine ⟨hwf.nodup, List.nodup_singleton _, ?_⟩
    intro a ha hb
    have hbn : a = name := by simpa using hb
    subst hbn
    exact alookup_none_not_mem_keys hfresh ha
  · -- every record carries its own name
    intro kv hkv
    rcases dset_entry_cases g.populations name node kv hkv with hold | hnew
    · exact hwf.names kv hold
    · rw [hnew]
      exact hname
  · -- parents stay present
    intro kv hkv
    rcases dset_entry_cases g.populations name node kv hkv with hold | hnew
    · have hc := hwf.closed kv hold
      cases hpar : kv.2.parent with
      | none => rfl
      | some par =>
        rw [hpar] at hc
        dsimp only at hc ⊢
        exact hsome_keep par hc
    · rw [hnew]
      dsimp only
      rw [hparent]
      dsimp only
      rw [hPkeep]
      rfl
  · -- the index invariant
    rw [inv_iff]
    intro kv hkv par hpar q hq
    rcases dset_entry_cases g.populations name node kv hkv with hold | hnew
    · have hc := hwf.closed kv hold
      rw [hpar] at hc
      dsimp only at hc
      have hparn : (par == name) = false := by
        rw [beq_eq_false_iff_ne]
        intro he
        rw [he, hfresh] at hc
        exact Bool.noConfusion hc
      rw [alookup_dset_ne _ _ _ _ hparn] at hq
      exact (inv_iff g).mp hInv kv hold par hpar q hq
    · rw [hnew] at hpar ⊢
      dsimp only at hpar ⊢
      rw [hparent] at hpar
      have hpe : parent_name = par := by
        injection hpar
      subst hpe
      rw [hPkeep] at hq
      have hqP : P = q := by injection hq
      subst hqP
      exact hidx

theorem update_populations_inv (parent_name : String) (P : PNode)
    (parent_df : List Row) (warnings : List String) :
    ∀ (output : List ChildPop) (g g' : Gating),
      TreeWf g → Inv g →
      alookup g.populations parent_name = some P →
      (∀ c ∈ output, alookup g.populations c.name = none) →
      (output.map ChildPop.name).Nodup →
      (∀ c ∈ output, c.index.toFinset ⊆ P.index.toFinset) →
      update_populations g output parent_df warnings parent_name = Except.ok g' →
      Inv g' ∧ TreeWf g' := by
  intro output
  induction output with
  | nil =>
    intro g g' hwf hInv hP hfresh hnodup hsub hok
    unfold update_populations at hok
    have hge : g = g' := by injection hok
    subst hge
    exact ⟨hInv, hwf⟩
  | cons child rest ih =>
    intro g g' hwf hInv hP hfresh hnodup hsub hok
    unfold update_populations at hok
    rw [hP] at hok
    dsimp only at hok
    have hfr : alookup g.populations child.name = none :=
      hfresh child (List.mem_cons_self _ _)
    have hsubc : child.index.toFinset ⊆ P.index.toFinset :=
      hsub child (List.mem_cons_self _ _)
    have hrest : ∀ node : PNode, node.name = child.name →
        node.parent = some parent_name → node.index = child.index →
        update_populations { g with populations := dset g.populations child.name node }
          rest parent_df warnings parent_name = Except.ok g' →
        Inv g' ∧ TreeWf g' := by
      intro node hnm hnp hni hok2
      obtain ⟨hwf1, hInv1, hP1⟩ :=
        inv_insert_fresh g child.name node parent_name P hwf hInv hP hfr hnm hnp
          (by rw [hni]; exact hsubc)
      refine ih _ _ hwf1 hInv1 hP1 ?_ (List.nodup_cons.mp hnodup).2 ?_ hok2
      · intro c hc
        have hcn : c.name ∈ rest.map ChildPop.name := List.mem_map_of_mem _ hc
        have hnin : child.name ∉ rest.map ChildPop.name := (List.nodup_cons.mp hnodup).1
        have hne : (c.name == child.name) = false := by
          rw [beq_eq_false_iff_ne]
          intro he
          exact hnin (he ▸ hcn)
        show alookup (dset g.populations child.name node) c.name = none
        rw [alookup_dset_ne _ _ _ _ hne]
        exact hfresh c (List.mem_cons_of_mem _ hc)
      · intro c hc
        exact hsub c (List.mem_cons_of_mem _ hc)
    split at hok
    · exact hrest _ rfl rfl rfl hok
    · split at hok
      · exact Except.noConfusion hok
      · exact hrest _ rfl rfl rfl hok

theorem inv_gates_only (g : Gating) (gates : List (String × DGate)) (h : Inv g) :
    Inv { g with gates := gates } := h

theorem treewf_gates_only (g : Gating) (gates : List (String × DGate)) (h : TreeWf g) :
    TreeWf { g with gates := gates } :=
  ⟨h.nodup, h.names, h.closed⟩

theorem merge_inv {ext : GatingExt} {g : Gating} {pl pr nn : String} {g' : Gating}
    (hwf : TreeWf g) (hInv : Inv g)
    (hok : merge ext g pl pr nn = Except.ok g') : Inv g' := by
  unfold merge at hok
  by_cases hnew : (alookup g.populations nn).isSome = true
  · rw [if_pos hnew] at hok
    exact Except.noConfusion hok
  · rw [if_neg hnew] at hok
    have hnone : alookup g.populations nn = none := by
      cases hx : alookup g.populations nn with
      | none => rfl
      | some v => rw [hx] at hnew; exact absurd rfl hnew
    cases hl : alookup g.populations pl with
    | none =>
      rw [hl] at hok
      cases hr : alookup g.populations pr with
      | none => rw [hr] at hok; exact Except.noConfusion hok
      | some rn => rw [hr] at hok; exact Except.noConfusion hok
    | some ln =>
      rw [hl] at hok
      cases hr : alookup g.populations pr with
      | none => rw [hr] at hok; exact Except.noConfusion hok
      | some rn =>
        rw [hr] at hok
        dsimp only at hok
        cases hlp : ln.parent with
        | none =>
          rw [hlp] at hok
          cases hrp : rn.parent with
          | none => rw [hrp] at hok; exact Except.noConfusion hok
          | some rp => rw [hrp] at hok; exact Except.noConfusion hok
        | some lp =>
          rw [hlp] at hok
          cases hrp : rn.parent with
          | none => rw [hrp] at hok; exact Except.noConfusion hok
          | some rp =>
            rw [hrp] at hok
            dsimp only at hok
            by_cases hlr : lp = rp
            · subst hlr
              rw [if_neg (not_not_intro rfl)] at hok
              cases hQ : alookup g.populations lp with
              | none => rw [hQ] at hok; exact Except.noConfusion hok
              | some Q =>
                rw [hQ] at hok
                dsimp only at hok
                cases hlg : ln.geom with
                | none => rw [hlg] at hok; exact Except.noConfusion hok
                | some lgeom =>
                  rw [hlg] at hok
                  dsimp only at hok
                  cases hgx : ggetItem lgeom ("x") with
                  | error e =>
                    rw [hgx] at hok
                    cases hgy : ggetItem lgeom ("y") with
                    | error e2 => rw [hgy] at hok; exact Except.noConfusion hok
                    | ok yg => rw [hgy] at hok; exact Except.noConfusion hok
                  | ok xg =>
                    rw [hgx] at hok
                    cases hgy : ggetItem lgeom ("y") with
                    | error e2 => rw [hgy] at hok; exact Except.noConfusion hok
                    | ok yg =>
                      rw [hgy] at hok
                      dsimp only at hok
                      cases hxs : xg.asStr with
                      | none =>
                        rw [hxs] at hok
                        cases hys : yg.asStr with
                        | none => rw [hys] at hok; exact Except.noConfusion hok
                        | some ycol => rw [hys] at hok; exact Except.noConfusion hok
                      | some xcol =>
                        rw [hxs] at hok
                        cases hys : yg.asStr with
                        | none => rw [hys] at hok; exact Except.noConfusion hok
                        | some ycol =>
                          rw [hys] at hok
                          dsimp only at hok
                          cases hpd : get_population_df g lp with
                          | error e => rw [hpd] at hok; exact Except.noConfusion hok
                          | ok parent_df =>
                            rw [hpd] at hok
                            dsimp only at hok
                            cases hloc : locRows parent_df (npUnique (ln.index ++ rn.index)) with
                            | error e => rw [hloc] at hok; exact Except.noConfusion hok
                            | ok drows =>
                              rw [hloc] at hok
                              dsimp only at hok
                              split at hok
                              · exact Except.noConfusion hok
                              · rename_i g1 hup
                                injection hok with hge
                                have hsubl : ln.index.toFinset ⊆ Q.index.toFinset :=
                                  (inv_iff g).mp hInv (pl, ln) (alookup_mem hl) lp hlp Q hQ
                                have hsubr : rn.index.toFinset ⊆ Q.index.toFinset :=
                                  (inv_iff g).mp hInv (pr, rn) (alookup_mem hr) lp hrp Q hQ
                                have hmain :=
                                  update_populations_inv lp Q parent_df [] _ g g1 hwf hInv hQ
                                    (by
                                      intro c hc
                                      rcases List.mem_singleton.mp hc with rfl
                                      exact hnone)
                                    (by simp)
                                    (by
                                      intro c hc
                                      rcases List.mem_singleton.mp hc with rfl
                                      dsimp only
                                      rw [npUnique_toFinset, List.toFinset_append]
                                      exact Finset.union_subset hsubl hsubr)
                                    hup
                                rw [← hge]
                                exact inv_gates_only g1 _ hmain.1
            · rw [if_pos hlr] at hok
              exact Except.noConfusion hok

theorem subtraction_inv {g : Gating} {targets : List String} {parent nn : String} {g' : Gating}
    (hwf : TreeWf g) (hInv : Inv g)
    (hok : subtraction g targets parent nn = Except.ok g') : Inv g' := by
  unfold subtraction at hok
  cases hp : alookup g.populations parent with
  | none => rw [hp] at hok; exact Except.noConfusion hok
  | some pnode =>
    rw [hp] at hok
    dsimp only at hok
    by_cases hall : (targets.all fun t => (alookup g.populations t).isSome) = true
    · rw [if_neg (by simp [hall])] at hok
      by_cases hnew : (alookup g.populations nn).isSome = true
      · rw [if_pos hnew] at hok
        exact Except.noConfusion hok
      · rw [if_neg hnew] at hok
        have hnone : alookup g.populations nn = none := by
          cases hx : alookup g.populations nn with
          | none => rfl
          | some v => rw [hx] at hnew; exact absurd rfl hnew
        cases hpg : pnode.geom with
        | none => rw [hpg] at hok; exact Except.noConfusion hok
        | some pgeom =>
          rw [hpg] at hok
          dsimp only at hok
          cases hgx : ggetItem pgeom ("x") with
          | error e =>
            rw [hgx] at hok
            cases hgy : ggetItem pgeom ("y") with
            | error e2 => rw [hgy] at hok; exact Except.noConfusion hok
            | ok yg => rw [hgy] at hok; exact Except.noConfusion hok
          | ok xg =>
            rw [hgx] at hok
            cases hgy : ggetItem pgeom ("y") with
            | error e2 => rw [hgy] at hok; exact Except.noConfusion hok
            | ok yg =>
              rw [hgy] at hok
              dsimp only at hok
              by_cases hemp : targets.isEmpty = true
              · rw [if_pos hemp] at hok
                exact Except.noConfusion hok
              · rw [if_neg hemp] at hok
                cases hpd : get_population_df g parent with
                | error e => rw [hpd] at hok; exact Except.noConfusion hok
                | ok parent_df =>
                  rw [hpd] at hok
                  dsimp only at hok
                  split at hok
                  · exact Except.noConfusion hok
                  · rename_i g1 hup
                    injection hok with hge
                    have hmain :=
                      update_populations_inv parent pnode parent_df [] _ g g1 hwf hInv hp
                        (by
                          intro c hc
                          rcases List.mem_singleton.mp hc with rfl
                          exact hnone)
                        (by simp)
                        (by
                          intro c hc
                          rcases List.mem_singleton.mp hc with rfl
                          dsimp only
                          rw [npSetdiff_toFinset]
                          exact Finset.sdiff_subset)
                        hup
                    rw [← hge]
                    exact inv_gates_only g1 _ hmain.1
    · rw [if_pos (by simp [Bool.eq_false_iff.mpr hall])] at hok
      exact Except.noConfusion hok

theorem parent_chain_head (pops : List (String × PNode)) (fuel : Nat) (name : String)
    (node : PNode) (h : alookup pops name = some node) :
    name ∈ parent_chain pops (fuel + 1) name := by
  unfold parent_chain
  rw [h]
  exact List.mem_cons_self _ _

theorem remove_population_sublist (g : Gating) (m : String) :
    (remove_population g m).populations.Sublist g.populations := by
  unfold remove_population
  split
  · exact List.Sublist.refl _
  · exact List.filter_sublist _

theorem remove_population_self (g : Gating) (m : String) :
    alookup (remove_population g m).populations m = none := by
  unfold remove_population
  cases hf : find_dependencies g m with
  | none =>
    dsimp only
    unfold find_dependencies at hf
    by_cases hn : (alookup g.populations m).isNone = true
    · exact Option.isNone_iff_eq_none.mp hn
    · rw [if_neg hn] at hf
      exact Option.noConfusion hf
  | some ds =>
    dsimp only
    have hds : ds = (g.populations.map Prod.fst).filter
        (fun n => (pathNames g n).contains m) := by
      unfold find_dependencies at hf
      by_cases hn : (alookup g.populations m).isNone = true
      · rw [if_pos hn] at hf
        exact Option.noConfusion hf
      · rw [if_neg hn] at hf
        injection hf with hf
        exact hf.symm
    have hmsome : ∃ node, alookup g.populations m = some node := by
      cases hx : alookup g.populations m with
      | none =>
        exfalso
        unfold find_dependencies at hf
        rw [if_pos (by rw [hx]; rfl)] at hf
        exact Option.noConfusion hf
      | some node => exact ⟨node, rfl⟩
    obtain ⟨node, hnode⟩ := hmsome
    have hmem : m ∈ ds := by
      rw [hds]
      rw [List.mem_filter]
      constructor
      · exact List.mem_map_of_mem Prod.fst (alookup_mem hnode)
      · exact contains_of_mem (parent_chain_head g.populations g.populations.length m node hnode)
    exact alookup_filter_out g.populations (fun s => ds.contains s) m (contains_of_mem hmem)

theorem alookup_none_of_sublist {α : Type} {l1 l2 : List (String × α)} {k : String}
    (hs : l1.Sublist l2) (h : alookup l2 k = none) : alookup l1 k = none := by
  cases hl : alookup l1 k with
  | none => rfl
  | some v =>
    exfalso
    exact mem_keys_alookup_ne_none (hs.subset (alookup_mem hl)) h

theorem foldl_remove_facts (ms : List String) :
    ∀ g : Gating,
      (ms.foldl (fun acc c => remove_population acc c) g).populations.Sublist g.populations ∧
      ∀ m ∈ ms, alookup (ms.foldl (fun acc c => remove_population acc c) g).populations m
        = none := by
  induction ms with
  | nil =>
    intro g
    refine ⟨List.Sublist.refl _, ?_⟩
    intro m hm
    simp at hm
  | cons c rest ih =>
    intro g
    constructor
    · exact ((ih (remove_population g c)).1).trans (remove_population_sublist g c)
    · intro m hm
      rcases List.mem_cons.mp hm with rfl | hm2
      · exact alookup_none_of_sublist (ih _).1 (remove_population_self g m)
      · exact (ih _).2 m hm2

theorem edit_loop_inv (ext : GatingExt) (g0 : Gating) (csAll : List String)
    (updated_geom : List (String × Geom))
    (hwf : TreeWf g0) (hncp : NoChildParent g0 csAll) :
    ∀ (cs : List String) (g : Gating) (eff imm : List String)
      (g1 : Gating) (eff1 imm1 : List String),
      (∀ c ∈ cs, c ∈ csAll) →
      LoopSt g0 g csAll →
      edit_loop ext g cs updated_geom eff imm = (g1, eff1, imm1, none) →
      LoopSt g0 g1 csAll ∧ (∀ m ∈ imm, m ∈ imm1) ∧
      (∀ name node c, alookup g1.populations name = some node →
        node.parent = some c → c ∈ cs → name ∈ imm1) := by
  intro cs
  induction cs with
  | nil =>
    intro g eff imm g1 eff1 imm1 hcs hL hok
    unfold edit_loop at hok
    injection hok with h1 h2
    injection h2 with h2 h3
    injection h3 with h3 h4
    subst h1
    subst h3
    refine ⟨hL, fun m hm => hm, ?_⟩
    intro name node c _ _ hc
    simp at hc
  | cons c rest ih =>
    intro g eff imm g1 eff1 imm1 hcs hL hok
    unfold edit_loop at hok
    cases hug : alookup updated_geom c with
    | none => rw [hug] at hok; simp at hok
    | some ug =>
      rw [hug] at hok
      dsimp only at hok
      cases hnodec : alookup g.populations c with
      | none => rw [hnodec] at hok; simp at hok
      | some node =>
        rw [hnodec] at hok
        dsimp only at hok
        have h_in_csAll : c ∈ csAll := hcs c (List.mem_cons_self _ _)
        have hc0 : ∃ node0, alookup g0.populations c = some node0 ∧
            node.name = node0.name ∧ node.parent = node0.parent := by
          rcases hL.ent c with he | ⟨_, node0, nx, hg0, hgc, hnm, hnp, _⟩
          · exact ⟨node, he.symm.trans hnodec, rfl, rfl⟩
          · have hxe : nx = node := by rw [hgc] at hnodec; injection hnodec
            subst hxe
            exact ⟨node0, hg0, hnm, hnp⟩
        obtain ⟨node0, hg0c, hnm0, hnp0⟩ := hc0
        cases hui : update_index ext
            { g with populations := dset g.populations c ({ node with geom := some ug }) }
            c ug with
        | error e => rw [hui] at hok; simp at hok
        | ok idx =>
          rw [hui] at hok
          dsimp only at hok
          cases hnpx : node.parent with
          | none =>
            exfalso
            unfold update_index at hui
            dsimp only at hui
            rw [alookup_dset_self] at hui
            dsimp only at hui
            rw [hnpx] at hui
            exact Except.noConfusion hui
          | some par =>
            have hn0par : node0.parent = some par := hnp0.symm.trans hnpx
            have hpar_not : par ∉ csAll := by
              have hb := List.all_eq_true.mp hncp c h_in_csAll
              rw [hg0c] at hb
              dsimp only at hb
              rw [hn0par] at hb
              dsimp only at hb
              have hb2 : csAll.contains par = false := by simpa using hb
              intro hmem
              rw [contains_of_mem hmem] at hb2
              exact Bool.noConfusion hb2
            have hparc : (par == c) = false :=
              beq_eq_false_iff_ne.mpr (fun he => hpar_not (he ▸ h_in_csAll))
            have halp_g : alookup g.populations par = alookup g0.populations par := by
              rcases hL.ent par with he | ⟨hin, _⟩
              · exact he
              · exact absurd hin hpar_not
            have hP0 : ∃ P, alookup g0.populations par = some P := by
              have hcl := hwf.closed (c, node0) (alookup_mem hg0c)
              dsimp only at hcl
              rw [hn0par] at hcl
              dsimp only at hcl
              cases hx : alookup g0.populations par with
              | none => rw [hx] at hcl; exact Bool.noConfusion hcl
              | some P => exact ⟨P, rfl⟩
            obtain ⟨P, hP⟩ := hP0
            have hPg1 : alookup (dset g.populations c ({ node with geom := some ug })) par
                = some P := by
              rw [alookup_dset_ne _ _ _ _ hparc, halp_g]
              exact hP
            have hidxsub : idx.toFinset ⊆ P.index.toFinset :=
              update_index_subset (alookup_dset_self _ _ _)
                (show ({ node with geom := some ug } : PNode).parent = some par from hnpx)
                hPg1 hui
            -- well-formedness of the post-edit state
            have hany1 : g.populations.any (fun p => p.1 == c) = true :=
              dhas_of_alookup_some hnodec
            have hk1 : (dset g.populations c ({ node with geom := some ug })).map Prod.fst
                = g.populations.map Prod.fst := keys_dset_hit _ _ _ hany1
            have hany2 : (dset g.populations c ({ node with geom := some ug })).any
                (fun p => p.1 == c) = true :=
              dhas_of_alookup_some (alookup_dset_self _ _ _)
            have hk2 : (dset (dset g.populations c ({ node with geom := some ug })) c
                  ({ node with geom := some ug, index := idx })).map Prod.fst
                = g0.populations.map Prod.fst := by
              rw [keys_dset_hit _ _ _ hany2, hk1, hL.keys]
            have hname_c : node0.name = c := hwf.names (c, node0) (alookup_mem hg0c)
            have hnames2 : ∀ kv ∈ dset (dset g.populations c ({ node with geom := some ug })) c
                ({ node with geom := some ug, index := idx }), kv.2.name = kv.1 := by
              intro kv hkv
              rcases dset_entry_cases _ _ _ kv hkv with h2 | h2
              · rcases dset_entry_cases _ _ _ kv h2 with h3 | h3
                · exact hL.names kv h3
                · rw [h3]
                  dsimp only
                  rw [hnm0]
                  exact hname_c
              · rw [h2]
                dsimp only
                rw [hnm0]
                exact hname_c
            have hent2 : ∀ n : String,
                alookup (dset (dset g.populations c ({ node with geom := some ug })) c
                  ({ node with geom := some ug, index := idx })) n
                  = alookup g0.populations n ∨
                (n ∈ csAll ∧ ∃ z0 z, alookup g0.populations n = some z0 ∧
                  alookup (dset (dset g.populations c ({ node with geom := some ug })) c
                    ({ node with geom := some ug, index := idx })) n = some z ∧
                  z.name = z0.name ∧ z.parent = z0.parent ∧
                  ∀ par2 P2, z0.parent = some par2 → alookup g0.populations par2 = some P2 →
                    z.index.toFinset ⊆ P2.index.toFinset) := by
              intro n
              by_cases hnc : (n == c) = true
              · have hne : n = c := eq_of_beq hnc
                subst hne
                right
                refine ⟨h_in_csAll, node0, { node with geom := some ug, index := idx },
                  hg0c, alookup_dset_self _ _ _, hnm0, hnp0, ?_⟩
                intro par2 P2 hpar2 hP2
                rw [hn0par] at hpar2
                have hpe : par = par2 := by injection hpar2
                subst hpe
                rw [hP] at hP2
                have hPe : P = P2 := by injection hP2
                subst hPe
                exact hidxsub
              · have hncf : (n == c) = false := Bool.eq_false_iff.mpr hnc
                have heqn : alookup (dset (dset g.populations c
                      ({ node with geom := some ug })) c
                      ({ node with geom := some ug, index := idx })) n
                    = alookup g.populations n := by
                  rw [alookup_dset_ne _ _ _ _ hncf, alookup_dset_ne _ _ _ _ hncf]
                rcases hL.ent n with he | ⟨hin, z0, z, hg0z, hgz, hznm, hznp, hzcl⟩
                · left
                  rw [heqn, he]
                · right
                  exact ⟨hin, z0, z, hg0z, by rw [heqn]; exact hgz, hznm, hznp, hzcl⟩
            split at hok
            · simp at hok
            · rename_i deps hfd
              obtain ⟨hL1, hmono, hcov⟩ :=
                ih _ _ _ _ _ _ (fun x hx => hcs x (List.mem_cons_of_mem _ hx))
                  ⟨hk2, hnames2, hent2⟩ hok
              refine ⟨hL1, ?_, ?_⟩
              · intro m hm
                exact hmono m (List.mem_append.mpr (Or.inl hm))
              · intro name nodeX cx hlook hparX hcx
                rcases List.mem_cons.mp hcx with hce | hcx2
                · -- parent is the child just edited
                  rw [hce] at hparX
                  have hg0name : alookup g0.populations name = some nodeX := by
                    rcases hL1.ent name with he | ⟨hincs, z0, z, hz0, hz, hznm, hznp, _⟩
                    · exact he.symm.trans hlook
                    · exfalso
                      have hze : z = nodeX := by rw [hz] at hlook; injection hlook
                      subst hze
                      have hz0p : z0.parent = some c := hznp.symm.trans hparX
                      have hb := List.all_eq_true.mp hncp name hincs
                      rw [hz0] at hb
                      dsimp only at hb
                      rw [hz0p] at hb
                      dsimp only at hb
                      have hb2 : csAll.contains c = false := by simpa using hb
                      rw [contains_of_mem h_in_csAll] at hb2
                      exact Bool.noConfusion hb2
                  have hnameX : nodeX.name = name :=
                    hwf.names (name, nodeX) (alookup_mem hg0name)
                  have hg2name : alookup (dset (dset g.populations c
                        ({ node with geom := some ug })) c
                        ({ node with geom := some ug, index := idx })) name
                      = some nodeX := by
                    rcases hent2 name with he2 | ⟨hin2, w0, w, hw0, hw, hwnm, hwnp, _⟩
                    · exact he2.trans hg0name
                    · exfalso
                      have hwe : w0 = nodeX := by rw [hw0] at hg0name; injection hg0name
                      subst hwe
                      have hwp : w0.parent = some c := hparX
                      have hb := List.all_eq_true.mp hncp name hin2
                      rw [hw0] at hb
                      dsimp only at hb
                      rw [hwp] at hb
                      dsimp only at hb
                      have hb2 : csAll.contains c = false := by simpa using hb
                      rw [contains_of_mem h_in_csAll] at hb2
                      exact Bool.noConfusion hb2
                  have hf : (name, nodeX) ∈ (dset (dset g.populations c
                        ({ node with geom := some ug })) c
                        ({ node with geom := some ug, index := idx })).filter
                      (fun kv => kv.2.parent == some c) :=
                    List.mem_filter.mpr ⟨alookup_mem hg2name, by rw [hparX]; simp⟩
                  have himms : name ∈ ((dset (dset g.populations c
                        ({ node with geom := some ug })) c
                        ({ node with geom := some ug, index := idx })).filter
                      (fun kv => kv.2.parent == some c)).map (fun kv => kv.2.name) :=
                    List.mem_map.mpr ⟨(name, nodeX), hf, hnameX⟩
                  exact hmono name (List.mem_append.mpr (Or.inr himms))
                · exact hcov name nodeX cx hlook hparX hcx2

theorem edit_gate_inv {ext : GatingExt} {g : Gating} {gate_name : String}
    {updated_geom : List (String × Geom)} {g' : Gating} {gate : DGate}
    (hwf : TreeWf g) (hInv : Inv g)
    (hg : alookup g.gates gate_name = some gate)
    (hncp : NoChildParent g gate.children)
    (hok : edit_gate ext g gate_name updated_geom true = (g', none)) :
    Inv g' := by
  unfold edit_gate at hok
  rw [hg] at hok
  dsimp only at hok
  cases hloop : edit_loop ext g gate.children updated_geom [] [] with
  | mk g1 t1 =>
    obtain ⟨eff1, imm1, errv⟩ := t1
    rw [hloop] at hok
    cases errv with
    | some e => simp at hok
    | none =>
      dsimp only at hok
      injection hok with h1 h2
      subst h1
      obtain ⟨hL1, _, hcov⟩ :=
        edit_loop_inv ext g gate.children updated_geom hwf hncp gate.children g [] []
          g1 eff1 imm1 (fun x hx => hx) ⟨rfl, hwf.names, fun n => Or.inl rfl⟩ hloop
      obtain ⟨hsubl, hgone⟩ := foldl_remove_facts imm1 g1
      have hn1 : (g1.populations.map Prod.fst).Nodup := by
        rw [hL1.keys]
        exact hwf.nodup
      rw [inv_iff]
      intro kv hkv par hpar q hq
      obtain ⟨k, v⟩ := kv
      dsimp only at hpar ⊢
      have hkv1 : (k, v) ∈ g1.populations := hsubl.subset hkv
      have hlkv : alookup g1.populations k = some v := alookup_of_mem_nodup hn1 hkv1
      by_cases hcpar : par ∈ gate.children
      · exfalso
        have hin : k ∈ imm1 := hcov k v par hlkv hpar hcpar
        exact mem_keys_alookup_ne_none hkv (hgone k hin)
      · have hq1 : (par, q) ∈ g1.populations := hsubl.subset (alookup_mem hq)
        have hlq : alookup g1.populations par = some q := alookup_of_mem_nodup hn1 hq1
        rcases hL1.ent k with hek | ⟨hkcs, node0, node, hg0k, hgk, hnm, hnp, hclause⟩
        · have hg0k2 : alookup g.populations k = some v := hek.symm.trans hlkv
          rcases hL1.ent par with hep | ⟨hpcs, _⟩
          · have hg0p : alookup g.populations par = some q := hep.symm.trans hlq
            exact (inv_iff g).mp hInv (k, v) (alookup_mem hg0k2) par hpar q hg0p
          · exact absurd hpcs hcpar
        · have hveq : node = v := by rw [hgk] at hlkv; injection hlkv
          subst hveq
          have hn0p : node0.parent = some par := hnp.symm.trans hpar
          rcases hL1.ent par with hep | ⟨hpcs, _⟩
          · have hg0p : alookup g.populations par = some q := hep.symm.trans hlq
            exact hclause par q hn0p hg0p
          · exact absurd hpcs hcpar

/-- C1: the population-tree index invariant of spec section 3 — for every
non-root population, `index` is a subset of the parent's `index` — is
preserved, on a well-formed tree, by every operation that creates or
rewrites populations: committing gate output through `update_populations`
(the children are fresh, as `__apply_checks` enforces, and their indices are
drawn from the parent dataframe), `merge`, `subtraction`, and `edit_gate`
with its default deletion of the populations downstream of the edited
children; any transient violation during the merge/subtract recompute is
restored before the operation returns. -/
theorem claim_C1_index_subset_invariant (ext : GatingExt) (g : Gating)
    (hwf : TreeWf g) (hInv : Inv g) :
    (∀ (output : List ChildPop) (parent_df : List Row) (warnings : List String)
       (parent_name : String) (P : PNode) (g2 : Gating),
       alookup g.populations parent_name = some P →
       (∀ c ∈ output, alookup g.populations c.name = none) →
       (output.map ChildPop.name).Nodup →
       (∀ c ∈ output, c.index.toFinset ⊆ P.index.toFinset) →
       update_populations g output parent_df warnings parent_name = Except.ok g2 →
       Inv g2) ∧
    (∀ (pl pr nn : String) (g2 : Gating),
       merge ext g pl pr nn = Except.ok g2 → Inv g2) ∧
    (∀ (targets : List String) (parent nn : String) (g2 : Gating),
       subtraction g targets parent nn = Except.ok g2 → Inv g2) ∧
    (∀ (gate_name : String) (gate : DGate) (updated_geom : List (String × Geom)) (g2 : Gating),
       alookup g.gates gate_name = some gate →
       NoChildParent g gate.children →
       edit_gate ext g gate_name updated_geom true = (g2, none) →
       Inv g2) := by
  refine ⟨?_, ?_, ?_, ?_⟩
  · intro output parent_df warnings parent_name P g2 hP hfresh hnodup hsub hok
    exact (update_populations_inv parent_name P parent_df warnings output g g2
      hwf hInv hP hfresh hnodup hsub hok).1
  · intro pl pr nn g2 hok
    exact merge_inv hwf hInv hok
  · intro targets parent nn g2 hok
    exact subtraction_inv hwf hInv hok
  · intro gate_name gate updated_geom g2 hg hncp hok
    exact edit_gate_inv hwf hInv hg hncp hok

/-- C1 witness: the demo state is well formed and satisfies the invariant,
and the state produced by subtracting `pos` from `root` satisfies it again. -/
theorem claim_C1_witness : Inv gSubOut := by
  have hE : subtraction gDemo [("pos")] ("root") ("neg") = Except.ok gSubOut := rfl
  exact (claim_C1_index_subset_invariant extAll gDemo
      ⟨by decide, by decide, by decide⟩ (by decide : invB gDemo = true)).2.2.1
    [("pos")] ("root") ("neg") gSubOut hE

end Engine

end CytoPySpec
